import Mathlib

/-!
Verification of the request trust pipeline of `drop` and of its callers.

A shallow embedding of the Go sources of `adeniyistephen/drop`
(`app/drop-admin`, `app/drop-api/handlers`, `business/data/user`,
`business/data/studio`, `foundation/database`) together with theorems about
them.

Conventions of the embedding

* A Go `error` is a value of `Err`.  Package-level error variables are
  compared by identity in Go, so every such variable is its own constant
  (`ErrVar`); two variables with the same message text are different values.
* `log.Fatal` ends the process; a function that may reach it returns an
  `Outcome` whose `fatal` case records that.  A Go run-time panic (a nil
  dereference) is the `crashed` case.
* The document store is a list of documents plus an optional driver fault.
  Every business function that talks to the store returns the calls it issued.
* `time.Time` is a number of nanoseconds since the zero time with a location
  name, `time.Duration` a number of nanoseconds.
* Tracing spans and the informational `Printf`/`Println` lines of the business
  layer carry no data the properties depend on and are left out.
-/

namespace Drop

/-! ## Errors -/

/-- Package-level error variables (`var ErrX = errors.New(...)`), one constant
per declaration site. -/
inductive ErrVar
  | user_ErrNotFound
  | user_ErrInvalidID
  | user_ErrAuthenticationFailure
  | user_ErrForbidden
  | studio_ErrNotFound
  | studio_ErrInvalidID
  | studio_ErrForbidden
  | database_ErrNotFound
  | database_ErrInvalidID
  | database_ErrAuthenticationFailure
  | database_ErrForbidden
  | commands_ErrHelp
  | conf_ErrHelpWanted
  | conf_ErrVersionWanted
  | mongo_ErrNoDocuments
  deriving DecidableEq, Repr

/-- The message text given to `errors.New` at the declaration. -/
def ErrVar.message : ErrVar → String
  | .user_ErrNotFound | .studio_ErrNotFound | .database_ErrNotFound => "not found"
  | .user_ErrInvalidID | .studio_ErrInvalidID | .database_ErrInvalidID =>
    "ID is not in its proper form"
  | .user_ErrAuthenticationFailure | .database_ErrAuthenticationFailure =>
    "authentication failed"
  | .user_ErrForbidden | .studio_ErrForbidden | .database_ErrForbidden =>
    "attempted action is not allowed"
  | .commands_ErrHelp => "provided help"
  | .conf_ErrHelpWanted => "help wanted"
  | .conf_ErrVersionWanted => "version wanted"
  | .mongo_ErrNoDocuments => "mongo: no documents in result"

/-- Go error values.
* `var v`: a package-level error variable;
* `lib msg`: an error produced by a library call (driver, bcrypt, decoder, ...);
* `new msg`: `errors.New(msg)` evaluated inside a function body;
* `wrap msg cause`: `errors.Wrap` / `errors.Wrapf` of `github.com/pkg/errors`;
* `request err status`: `validate.NewRequestError(err, status)`;
* `shutdown msg`: `web.NewShutdownError(msg)`. -/
inductive Err
  | var (v : ErrVar)
  | lib (msg : String)
  | new (msg : String)
  | wrap (msg : String) (cause : Err)
  | request (err : Err) (status : Nat)
  | shutdown (msg : String)
  deriving DecidableEq, Repr

/-- Go `errors.Cause` of `github.com/pkg/errors`: strips every `Wrap` layer and
stops at the first error that has no cause of its own. -/
def Err.Cause : Err → Err
  | .wrap _ cause => cause.Cause
  | e => e

/-- Outcome of a function that may call `log.Fatal` or fail at run time: it
returns, ends the process through `log.Fatal`, or raises a Go run-time panic
(`crashed`, with the text of the run-time error). -/
inductive Outcome (α : Type)
  | ret (a : α)
  | fatal (err : Err)
  | crashed (msg : String)
  deriving DecidableEq, Repr

namespace http
def StatusOK : Nat := 200
def StatusCreated : Nat := 201
def StatusNoContent : Nat := 204
def StatusBadRequest : Nat := 400
def StatusForbidden : Nat := 403
def StatusNotFound : Nat := 404
def StatusInternalServerError : Nat := 500
def MethodGet : String := "GET"
def MethodPost : String := "POST"
def MethodPut : String := "PUT"
def MethodDelete : String := "DELETE"
def MethodOptions : String := "OPTIONS"
end http

namespace database
def ErrNotFound : Err := .var .database_ErrNotFound
def ErrInvalidID : Err := .var .database_ErrInvalidID
def ErrAuthenticationFailure : Err := .var .database_ErrAuthenticationFailure
def ErrForbidden : Err := .var .database_ErrForbidden
end database

namespace commands
def ErrHelp : Err := .var .commands_ErrHelp
end commands

namespace conf
def ErrHelpWanted : Err := .var .conf_ErrHelpWanted
def ErrVersionWanted : Err := .var .conf_ErrVersionWanted
end conf

namespace mongo
def ErrNoDocuments : Err := .var .mongo_ErrNoDocuments
end mongo

/-! ## `app/drop-admin/main.go` -/

namespace admin

/-- What the admin process observes from the outside world during one
invocation: the results of the `conf` calls, the first positional argument and
the result of `commands.GenKey()`. -/
structure Env where
  /-- Result of `conf.Parse(os.Args[1:], prefix, &cfg)`. -/
  parse : Option Err
  /-- Result of `conf.Usage(prefix, &cfg)`. -/
  usage : Except Err String
  /-- Result of `conf.VersionString(prefix, &cfg)`. -/
  versionString : Except Err String
  /-- Result of `conf.String(&cfg)`. -/
  confString : Except Err String
  /-- Value of `cfg.Args.Num(0)`. -/
  arg0 : String
  /-- Result of `commands.GenKey()`. -/
  genKey : Option Err

/-- Lines the admin process writes. -/
inductive Event
  | println (s : String)
  | logConfig (out : String)
  | logError (err : Err)
  deriving DecidableEq, Repr

/-- The function `run` of `app/drop-admin/main.go`: the written lines and the returned error. -/
def run (env : Env) : List Event × Option Err :=
  match env.parse with
  | some err =>
    if err = conf.ErrHelpWanted then
      match env.usage with
      | .error e => ([], some (.wrap "generating config usage" e))
      | .ok usage => ([.println usage], none)
    else if err = conf.ErrVersionWanted then
      match env.versionString with
      | .error e => ([], some (.wrap "generating config version" e))
      | .ok version => ([.println version], none)
    else ([], some (.wrap "parsing config" err))
  | none =>
    match env.confString with
    | .error e => ([], some (.wrap "generating config for output" e))
    | .ok out =>
      if env.arg0 = "genkey" then
        match env.genKey with
        | some e => ([.logConfig out], some (.wrap "key generation" e))
        | none =>
          ([.logConfig out,
            .println "genkey: generate a set of private/public key files"],
           some commands.ErrHelp)
      else ([.logConfig out], none)

/-- The function `main` of `app/drop-admin/main.go`: the written lines and the process exit
code (`os.Exit(1)` on any error of `run`, 0 when `main` returns). -/
def main (env : Env) : List Event × Nat :=
  match run env with
  | (evs, some err) =>
    (if err.Cause ≠ commands.ErrHelp then evs ++ [.logError err] else evs, 1)
  | (evs, none) => (evs, 0)

/-- An invocation `drop-admin genkey` in which every step succeeds. -/
def genkeyOk : Env :=
  { parse := none, usage := .ok "usage", versionString := .ok "version",
    confString := .ok "cfg", arg0 := "genkey", genKey := none }

end admin

/-! ## Time -/

namespace time

/-- Go `time.Time`: an instant in nanoseconds together with the name of its
location.  The zero value is instant 0 in UTC. -/
structure Time where
  nsec : Int := 0
  loc : String := "UTC"
  deriving DecidableEq, Repr

/-- Go `time.Hour`, a `time.Duration` in nanoseconds. -/
def Hour : Int := 60 * 60 * 1000000000

/-- Go `t.Add(d)`. -/
def Time.Add (t : Time) (d : Int) : Time := { t with nsec := t.nsec + d }

/-- Go `t.UTC()`: the same instant with the location set to UTC. -/
def Time.UTC (t : Time) : Time := { t with loc := "UTC" }

/-- Go `t.After(u)`: the instant of `t` is later than the instant of `u`. -/
def Time.After (t u : Time) : Bool := decide (u.nsec < t.nsec)

/-- Go `time.Microsecond`, a `time.Duration` in nanoseconds. -/
def Microsecond : Int := 1000

/-- Go `time.Millisecond`, a `time.Duration` in nanoseconds. -/
def Millisecond : Int := 1000000

/-- Go `t.Truncate(d)`: the instant rounded down to a multiple of `d` since
the zero time; `t` itself when `d` is not positive. -/
def Time.Truncate (t : Time) (d : Int) : Time :=
  if 0 < d then { t with nsec := t.nsec - t.nsec % d } else t

end time

/-! ## `github.com/dgrijalva/jwt-go/v4`, as `Authenticate` uses it -/

namespace jwt

/-- Go `jwt.TimePrecision`: time values are truncated to microseconds. -/
def TimePrecision : Int := time.Microsecond

/-- Go `jwt.At(at)`: the time value of a claim, truncated to `TimePrecision`. -/
def At (t : time.Time) : time.Time := t.Truncate TimePrecision

end jwt

/-! ## The document store (`go.mongodb.org/mongo-driver`, as the code uses it) -/

namespace bson

/-- BSON values that occur in the documents, filters and updates of this
repository. -/
inductive Value
  | null
  | str (s : String)
  | strs (l : List String)
  | bytes (b : List Nat)
  | datetime (t : time.Time)
  | doc (d : List (String × Value))
  deriving Repr

/-- Go `bson.E`: a key with its value. -/
abbrev E := String × Value

/-- Go `bson.D` (and, for this embedding, `bson.M`): an ordered document. -/
abbrev D := List E

mutual
/-- Structural equality of BSON values. -/
def Value.beq : Value → Value → Bool
  | .null, .null => true
  | .str a, .str b => a == b
  | .strs a, .strs b => a == b
  | .bytes a, .bytes b => a == b
  | .datetime a, .datetime b => a == b
  | .doc a, .doc b => Value.beqList a b
  | _, _ => false
/-- Structural equality of BSON documents. -/
def Value.beqList : List (String × Value) → List (String × Value) → Bool
  | [], [] => true
  | (k, v) :: as, (k2, v2) :: bs => k == k2 && Value.beq v v2 && Value.beqList as bs
  | _, _ => false
end

instance : BEq Value := ⟨Value.beq⟩

/-- A Go `*string` as a BSON value: nil encodes as null. -/
def ptr : Option String → Value
  | none => .null
  | some s => .str s

/-- The value stored under a key; an absent key reads as null. -/
def D.get (d : D) (key : String) : Value :=
  match d.find? (fun e => e.1 == key) with
  | some e => e.2
  | none => .null

/-- Writes a key: replaces the value of an existing key, appends a new key. -/
def D.set (d : D) (key : String) (v : Value) : D :=
  if d.any (fun e => e.1 == key) then
    d.map (fun e => if e.1 == key then (key, v) else e)
  else d ++ [(key, v)]

/-- Equality filter: every element of the filter equals the stored value. -/
def D.matches (filter : D) (doc : D) : Bool :=
  filter.all (fun e => doc.get e.1 == e.2)

end bson

namespace mongo

/-- A collection: its documents, and the error every driver call returns while
the connection is broken (`none` when it is healthy). -/
structure Collection where
  docs : List bson.D := []
  fault : Option Err := none

/-- Go `options.FindOptions`, the fields this code sets. -/
structure FindOptions where
  Limit : Option Int := none
  Skip : Option Int := none
  deriving DecidableEq, Repr

/-- A call issued to a collection. -/
inductive Call
  | InsertOne (doc : bson.D)
  | FindOne (filter : bson.D)
  | Find (filter : bson.D) (opts : List FindOptions)
  | DeleteOne (filter : bson.D)
  | FindOneAndUpdate (filter : bson.D) (update : bson.D)
  deriving Repr

/-- Go `coll.FindOne(ctx, filter)` followed by `Decode`: the first matching
document, `ErrNoDocuments` when there is none. -/
def Collection.FindOne (c : Collection) (filter : bson.D) : Except Err bson.D :=
  match c.fault with
  | some e => .error e
  | none =>
    match c.docs.find? (fun d => bson.D.matches filter d) with
    | some d => .ok d
    | none => .error ErrNoDocuments

/-- Removes the first document that satisfies `p`; the number removed. -/
def eraseFirst (p : bson.D → Bool) : List bson.D → Nat × List bson.D
  | [] => (0, [])
  | d :: ds =>
    if p d then (1, ds)
    else ((eraseFirst p ds).1, d :: (eraseFirst p ds).2)

/-- Go `coll.DeleteOne(ctx, filter, opts)`: `DeletedCount` and the collection
afterwards. -/
def Collection.DeleteOne (c : Collection) (filter : bson.D) :
    Except Err (Nat × Collection) :=
  match c.fault with
  | some e => .error e
  | none =>
    .ok ((eraseFirst (fun d => bson.D.matches filter d) c.docs).1,
         { c with docs := (eraseFirst (fun d => bson.D.matches filter d) c.docs).2 })

/-- Applies the `$set` part of an update to a document. -/
def applySet (update : bson.D) (doc : bson.D) : bson.D :=
  match bson.D.get update "$set" with
  | .doc fields => fields.foldl (fun acc e => bson.D.set acc e.1 e.2) doc
  | _ => doc

/-- Updates the first document that satisfies `p`; the document after the
update, if one matched. -/
def updateFirst (p : bson.D → Bool) (f : bson.D → bson.D) :
    List bson.D → Option bson.D × List bson.D
  | [] => (none, [])
  | d :: ds =>
    if p d then (some (f d), f d :: ds)
    else ((updateFirst p f ds).1, d :: (updateFirst p f ds).2)

/-- Go `coll.FindOneAndUpdate(ctx, filter, update, &returnOpt)` with
`ReturnDocument: After`, followed by `Decode`. -/
def Collection.FindOneAndUpdate (c : Collection) (filter update : bson.D) :
    Except Err bson.D × Collection :=
  match c.fault with
  | some e => (.error e, c)
  | none =>
    match (updateFirst (fun d => bson.D.matches filter d) (applySet update) c.docs).1 with
    | some d =>
      (.ok d, { c with docs :=
        (updateFirst (fun d => bson.D.matches filter d) (applySet update) c.docs).2 })
    | none => (.error ErrNoDocuments, c)

end mongo

/-- What a business function did: its returned values (or the `log.Fatal`
that ended the process), the collection afterwards and the calls it issued to
the collection, in order. -/
structure Run (α : Type) where
  out : Outcome α
  coll : mongo.Collection
  calls : List mongo.Call

/-! ## `business/auth` (claims) -/

namespace auth

/-- Go `auth.Claims`: `jwt.StandardClaims` with the roles. -/
structure Claims where
  Audience : List String := []
  ExpiresAt : Option time.Time := none
  ID : String := ""
  IssuedAt : Option time.Time := none
  Issuer : String := ""
  NotBefore : Option time.Time := none
  Subject : String := ""
  Roles : List String := []
  deriving DecidableEq, Repr

/-- Go `auth.RoleAdmin`. -/
def RoleAdmin : String := "ADMIN"

/-- Modelled from the spec: `business/auth` is not among the sources; the spec
gives `Authorized(claims, requiredRole)` as true iff `requiredRole` is present
in `claims.roles`. -/
def Claims.Authorized (c : Claims) (role : String) : Bool :=
  c.Roles.contains role

end auth

/-! ## Decoding stored documents into Go structs -/

namespace bson

/-- Decoding into a Go `string` field: anything but a string leaves the zero
value. -/
def Value.asString : Value → String
  | .str s => s
  | _ => ""

/-- Decoding into a Go `[]string` field. -/
def Value.asStrings : Value → List String
  | .strs l => l
  | _ => []

/-- Decoding into a Go `[]byte` field. -/
def Value.asBytes : Value → List Nat
  | .bytes b => b
  | _ => []

/-- Decoding into a Go `time.Time` field. -/
def Value.asTime : Value → time.Time
  | .datetime t => t
  | _ => {}

/-- Encoding of a Go `time.Time`: a BSON datetime counts whole milliseconds
and carries no location. -/
def Value.ofTime (t : time.Time) : Value :=
  .datetime (t.Truncate time.Millisecond).UTC

/-- The value can be decoded into a Go `string` field (null gives the zero
value). -/
def Value.fitsString : Value → Bool
  | .str _ => true
  | .null => true
  | _ => false

/-- The value can be decoded into a Go `[]string` field. -/
def Value.fitsStrings : Value → Bool
  | .strs _ => true
  | .null => true
  | _ => false

/-- The value can be decoded into a Go `[]byte` field. -/
def Value.fitsBytes : Value → Bool
  | .bytes _ => true
  | .null => true
  | _ => false

/-- The value can be decoded into a Go `time.Time` field. -/
def Value.fitsTime : Value → Bool
  | .datetime _ => true
  | .null => true
  | _ => false

/-- The error `Decode` returns for an element it cannot decode. -/
def decodeError (e : E) : Err := .lib ("error decoding key " ++ e.1)

end bson

/-! ## `business/data/user/models.go`, `business/data/studio/models.go` -/

namespace user

/-- Go `user.Info`. -/
structure Info where
  ID : String := ""
  Name : String := ""
  Email : String := ""
  Roles : List String := []
  Password : String := ""
  PasswordHash : List Nat := []
  Created_at : time.Time := {}
  Updated_at : time.Time := {}
  deriving DecidableEq, Repr

/-- Go `user.NewUser`. -/
structure NewUser where
  Name : String := ""
  Email : String := ""
  Roles : List String := []
  Password : String := ""
  PasswordConfirm : String := ""
  deriving DecidableEq, Repr

/-- Go `user.UpdateUser`; a `*string` field is an `Option String`. -/
structure UpdateUser where
  Name : Option String := none
  Email : Option String := none
  Roles : List String := []
  Password : Option String := none
  PasswordConfirm : Option String := none
  deriving DecidableEq, Repr

/-- The element belongs to a field of `user.Info` and its value does not have
the type of that field. -/
def illTyped (e : bson.E) : Bool :=
  if e.1 = "_id" ∨ e.1 = "name" ∨ e.1 = "email" ∨ e.1 = "password" then !e.2.fitsString
  else if e.1 = "roles" then !e.2.fitsStrings
  else if e.1 = "passwordhash" then !e.2.fitsBytes
  else if e.1 = "created_at" ∨ e.1 = "updated_at" then !e.2.fitsTime
  else false

/-- The elements `Decode` reads into a `user.Info`: it goes through the
document in order and stops at the first ill-typed element. -/
def decoded (d : bson.D) : bson.D := d.takeWhile (fun e => !illTyped e)

/-- The error of `Decode` into a `user.Info`, if any: that of the first
ill-typed element. -/
def decodeErr (d : bson.D) : Option Err :=
  (d.find? illTyped).map bson.decodeError

/-- Decoding of a stored document into `user.Info`, as far as `Decode` gets:
`ID` carries the tag `bson:"_id"`, every other field is stored under its
lower-cased name; fields not reached keep the zero value. -/
def decodeInfo (d : bson.D) : Info :=
  { ID := (bson.D.get (decoded d) "_id").asString
    Name := (bson.D.get (decoded d) "name").asString
    Email := (bson.D.get (decoded d) "email").asString
    Roles := (bson.D.get (decoded d) "roles").asStrings
    Password := (bson.D.get (decoded d) "password").asString
    PasswordHash := (bson.D.get (decoded d) "passwordhash").asBytes
    Created_at := (bson.D.get (decoded d) "created_at").asTime
    Updated_at := (bson.D.get (decoded d) "updated_at").asTime }

/-- The loop of `Query` over the cursor: every document is decoded in turn;
the first decoding error goes to `log.Fatal`. -/
def decodeAll : List bson.D → Except Err (List Info)
  | [] => .ok []
  | d :: ds =>
    match decodeErr d with
    | some err => .error err
    | none =>
      match decodeAll ds with
      | .error err => .error err
      | .ok infos => .ok (decodeInfo d :: infos)

def ErrNotFound : Err := .var .user_ErrNotFound
def ErrInvalidID : Err := .var .user_ErrInvalidID
def ErrAuthenticationFailure : Err := .var .user_ErrAuthenticationFailure
def ErrForbidden : Err := .var .user_ErrForbidden

end user

namespace studio

/-- Go `studio.Info`. -/
structure Info where
  ID : String := ""
  Name : String := ""
  Email : String := ""
  SocialHandle : String := ""
  Description : String := ""
  Created_at : time.Time := {}
  City : String := ""
  State : String := ""
  Country : String := ""
  Updated_at : time.Time := {}
  deriving DecidableEq, Repr

/-- Go `studio.NewStudio`. -/
structure NewStudio where
  Name : String := ""
  Email : String := ""
  SocialHandle : String := ""
  City : String := ""
  Description : String := ""
  State : String := ""
  Country : String := ""
  Created_at : time.Time := {}
  deriving DecidableEq, Repr

/-- Go `studio.UpdateStudio`; a `*string` field is an `Option String`. -/
structure UpdateStudio where
  Name : Option String := none
  Email : Option String := none
  SocialHandle : Option String := none
  Description : Option String := none
  City : Option String := none
  State : Option String := none
  Country : Option String := none
  deriving DecidableEq, Repr

/-- The element belongs to a field of `studio.Info` and its value does not
have the type of that field. -/
def illTyped (e : bson.E) : Bool :=
  if e.1 = "_id" ∨ e.1 = "name" ∨ e.1 = "email" ∨ e.1 = "socialhandle" ∨
      e.1 = "description" ∨ e.1 = "city" ∨ e.1 = "state" ∨ e.1 = "country" then
    !e.2.fitsString
  else if e.1 = "created_at" ∨ e.1 = "updated_at" then !e.2.fitsTime
  else false

/-- The elements `Decode` reads into a `studio.Info`: it goes through the
document in order and stops at the first ill-typed element. -/
def decoded (d : bson.D) : bson.D := d.takeWhile (fun e => !illTyped e)

/-- The error of `Decode` into a `studio.Info`, if any: that of the first
ill-typed element. -/
def decodeErr (d : bson.D) : Option Err :=
  (d.find? illTyped).map bson.decodeError

/-- Decoding of a stored document into `studio.Info`, as far as `Decode`
gets: `ID` carries the tag `bson:"_id"`, every other field is stored under its
lower-cased name; fields not reached keep the zero value. -/
def decodeInfo (d : bson.D) : Info :=
  { ID := (bson.D.get (decoded d) "_id").asString
    Name := (bson.D.get (decoded d) "name").asString
    Email := (bson.D.get (decoded d) "email").asString
    SocialHandle := (bson.D.get (decoded d) "socialhandle").asString
    Description := (bson.D.get (decoded d) "description").asString
    Created_at := (bson.D.get (decoded d) "created_at").asTime
    City := (bson.D.get (decoded d) "city").asString
    State := (bson.D.get (decoded d) "state").asString
    Country := (bson.D.get (decoded d) "country").asString
    Updated_at := (bson.D.get (decoded d) "updated_at").asTime }

/-- The loop of `Query` and `QueryByLocation` over the cursor: every document
is decoded in turn; the first decoding error goes to `log.Fatal`. -/
def decodeAll : List bson.D → Except Err (List Info)
  | [] => .ok []
  | d :: ds =>
    match decodeErr d with
    | some err => .error err
    | none =>
      match decodeAll ds with
      | .error err => .error err
      | .ok infos => .ok (decodeInfo d :: infos)

def ErrNotFound : Err := .var .studio_ErrNotFound
def ErrInvalidID : Err := .var .studio_ErrInvalidID
def ErrForbidden : Err := .var .studio_ErrForbidden

end studio

/-! ## Library functions the business layer calls -/

/-- The functions of `business/validate` and `golang.org/x/crypto/bcrypt` the
business layer calls.  Neither package is among the sources; they are
parameters of the embedding. -/
structure Lib where
  /-- Go `validate.CheckID(id)`; `none` is a nil error. -/
  CheckID : String → Option Err
  /-- Go `validate.Check(nu)` on a `user.NewUser`. -/
  CheckNewUser : user.NewUser → Option Err
  /-- Go `validate.Check(uu)` on a `user.UpdateUser`. -/
  CheckUpdateUser : user.UpdateUser → Option Err
  /-- Go `validate.Check(ns)` on a `studio.NewStudio`. -/
  CheckNewStudio : studio.NewStudio → Option Err
  /-- Go `validate.Check(us)` on a `studio.UpdateStudio`. -/
  CheckUpdateStudio : studio.UpdateStudio → Option Err
  /-- Go `validate.GenerateID()`. -/
  GenerateID : String
  /-- Go `bcrypt.GenerateFromPassword(password, bcrypt.DefaultCost)`. -/
  GenerateFromPassword : String → Except Err (List Nat)
  /-- Go `bcrypt.CompareHashAndPassword(hash, password)`; `none` is a match. -/
  CompareHashAndPassword : List Nat → String → Option Err

/-! ## `business/data/user/user.go` -/

namespace user

/-- Go `User.QueryByID`.  A failed `FindOne(...).Decode(&result)` is only
printed; the function then returns the untouched `result` with a nil error. -/
def QueryByID (lib : Lib) (coll : mongo.Collection) (claims : auth.Claims)
    (userID : String) : Run (Info × Option Err) :=
  match lib.CheckID userID with
  | some _ => ⟨.ret ({}, some ErrInvalidID), coll, []⟩
  | none =>
    if claims.Authorized auth.RoleAdmin = false ∧ claims.Subject ≠ userID then
      ⟨.ret ({}, some ErrForbidden), coll, []⟩
    else
      match coll.FindOne [("_id", .str userID)] with
      | .ok d => ⟨.ret (decodeInfo d, none), coll, [.FindOne [("_id", .str userID)]]⟩
      | .error _ => ⟨.ret ({}, none), coll, [.FindOne [("_id", .str userID)]]⟩

/-- Go `User.Delete`.  A driver error of `DeleteOne` goes to `log.Fatal`. -/
def Delete (lib : Lib) (coll : mongo.Collection) (claims : auth.Claims)
    (userID : String) : Run (Option Err) :=
  match lib.CheckID userID with
  | some _ => ⟨.ret (some ErrInvalidID), coll, []⟩
  | none =>
    if claims.Authorized auth.RoleAdmin = false ∧ claims.Subject ≠ userID then
      ⟨.ret (some ErrForbidden), coll, []⟩
    else
      match coll.DeleteOne [("_id", .str userID)] with
      | .error e => ⟨.fatal e, coll, [.DeleteOne [("_id", .str userID)]]⟩
      | .ok res => ⟨.ret none, res.2, [.DeleteOne [("_id", .str userID)]]⟩

/-- The record `usr` that `User.Authenticate` compares the password against:
the decoded document found by e-mail, or the zero `Info` when
`FindOne(...).Decode(&usr)` fails (the error is only printed). -/
def authUser (coll : mongo.Collection) (email : String) : Info :=
  match coll.FindOne [("email", .str email)] with
  | .ok d => decodeInfo d
  | .error _ => {}

/-- Go `User.Authenticate`. -/
def Authenticate (lib : Lib) (coll : mongo.Collection) (now : time.Time)
    (email password : String) : Run (auth.Claims × Option Err) :=
  match lib.CompareHashAndPassword (authUser coll email).PasswordHash password with
  | some _ =>
    ⟨.ret ({}, some database.ErrAuthenticationFailure), coll,
      [.FindOne [("email", .str email)]]⟩
  | none =>
    ⟨.ret ({ Issuer := "drop project"
             Subject := (authUser coll email).ID
             ExpiresAt := some (jwt.At (now.Add time.Hour))
             IssuedAt := some (jwt.At now)
             Roles := (authUser coll email).Roles }, none), coll,
      [.FindOne [("email", .str email)]]⟩

end user

/-! ## `business/data/studio/studio.go` -/

namespace studio

/-- Go `Studio.QueryByID`.  A failed `FindOne(...).Decode(&result)` is only
printed; the function then returns the untouched `result` with a nil error. -/
def QueryByID (lib : Lib) (coll : mongo.Collection) (studioID : String) :
    Run (Info × Option Err) :=
  match lib.CheckID studioID with
  | some _ => ⟨.ret ({}, some ErrInvalidID), coll, []⟩
  | none =>
    match coll.FindOne [("_id", .str studioID)] with
    | .ok d => ⟨.ret (decodeInfo d, none), coll, [.FindOne [("_id", .str studioID)]]⟩
    | .error _ => ⟨.ret ({}, none), coll, [.FindOne [("_id", .str studioID)]]⟩

/-- The filter of `Studio.Update`: `bson.D{{Key: "name", Value: us.Name}}`. -/
def updateFilter (us : UpdateStudio) : bson.D := [("name", bson.ptr us.Name)]

/-- The update document of `Studio.Update`. -/
def updateDoc (us : UpdateStudio) : bson.D :=
  [("$set", .doc
    [("name", bson.ptr us.Name),
     ("email", bson.ptr us.Email),
     ("socials", bson.ptr us.SocialHandle),
     ("description", bson.ptr us.Description),
     ("city", bson.ptr us.City),
     ("state", bson.ptr us.State),
     ("country", bson.ptr us.Country)])]

/-- Go `Studio.Update`.  The result of `FindOneAndUpdate` is decoded and the
decoding error dropped. -/
def Update (lib : Lib) (coll : mongo.Collection) (studioID : String)
    (us : UpdateStudio) (_now : time.Time) : Run (Option Err) :=
  match lib.CheckID studioID with
  | some _ => ⟨.ret (some ErrInvalidID), coll, []⟩
  | none =>
    match lib.CheckUpdateStudio us with
    | some err => ⟨.ret (some (.wrap "validating data" err)), coll, []⟩
    | none =>
      match (QueryByID lib coll studioID).out with
      | .fatal e => ⟨.fatal e, coll, (QueryByID lib coll studioID).calls⟩
      | .crashed msg => ⟨.crashed msg, coll, (QueryByID lib coll studioID).calls⟩
      | .ret (_, some err) =>
        ⟨.ret (some (.wrap "updating user" err)), coll, (QueryByID lib coll studioID).calls⟩
      | .ret (_, none) =>
        ⟨.ret none, (coll.FindOneAndUpdate (updateFilter us) (updateDoc us)).2,
          (QueryByID lib coll studioID).calls ++
            [.FindOneAndUpdate (updateFilter us) (updateDoc us)]⟩

/-- Go `Studio.Delete`.  A driver error of `DeleteOne` goes to `log.Fatal`. -/
def Delete (lib : Lib) (coll : mongo.Collection) (claims : auth.Claims)
    (studioID : String) : Run (Option Err) :=
  match lib.CheckID studioID with
  | some _ => ⟨.ret (some ErrInvalidID), coll, []⟩
  | none =>
    if claims.Authorized auth.RoleAdmin = false then
      ⟨.ret (some ErrForbidden), coll, []⟩
    else
      match coll.DeleteOne [("_id", .str studioID)] with
      | .error e => ⟨.fatal e, coll, [.DeleteOne [("_id", .str studioID)]]⟩
      | .ok res => ⟨.ret none, res.2, [.DeleteOne [("_id", .str studioID)]]⟩

end studio

/-! ## `foundation/web`, as the handlers use it -/

namespace web

/-- Go `web.Values`, the request-scoped state stored in the context. -/
structure Values where
  TraceID : String := ""
  Now : time.Time := {}
  StatusCode : Nat := 0
  deriving DecidableEq, Repr

/-- What a handler reads from `ctx` and `r`: the web values and the claims in
the context (absent when the type assertion fails), the route parameters, and
the result `web.Decode` gives for the request body. -/
structure Request (β : Type) where
  values : Option Values
  claims : Option auth.Claims
  params : List (String × String)
  body : Except Err β

/-- Go `web.Params(r)[key]`; a missing key reads as the empty string. -/
def Params {β : Type} (r : Request β) (key : String) : String :=
  match r.params.find? (fun e => e.1 == key) with
  | some e => e.2
  | none => ""

/-- What a handler returns: an error, or the tail call
`web.Respond(ctx, w, data, statusCode)`. -/
inductive Reply (α : Type)
  | err (e : Err)
  | respond (data : α) (statusCode : Nat)
  deriving DecidableEq, Repr

/-- Steps of a handler that later steps depend on. -/
inductive Effect
  | decodeBody
  | readParams
  | store (c : mongo.Call)
  deriving Repr

/-- What a handler did: its reply (or the `log.Fatal` that ended the process),
the collection afterwards and its steps, in order. -/
structure HandlerRun (α : Type) where
  reply : Outcome (Reply α)
  coll : mongo.Collection
  effects : List Effect

/-- Modelled from the spec: `business/mid` is not among the sources.  The
error-translation stage maps an error of the closed set of recognised kinds
(a request error carries its status) to that status and falls back to 500 for
anything unrecognised. -/
def translate (e : Err) : Nat :=
  match e.Cause with
  | .request _ status => status
  | _ => http.StatusInternalServerError

end web

/-! ## `app/drop-api/handlers/studio.go` -/

namespace studioGroup

/-- The `switch errors.Cause(err)` shared by the studio handlers `queryByID`,
`update` and `delete`; `msg` is the text of the `default` branch. -/
def classify (err : Err) (msg : String) : Err :=
  if err.Cause = database.ErrInvalidID then .request err http.StatusBadRequest
  else if err.Cause = database.ErrNotFound then .request err http.StatusNotFound
  else .wrap msg err

/-- Go `studioGroup.queryByID`. -/
def queryByID {β : Type} (lib : Lib) (coll : mongo.Collection) (r : web.Request β) :
    web.HandlerRun studio.Info :=
  match r.values with
  | none => ⟨.ret (.err (.shutdown "web value missing from context")), coll, []⟩
  | some _ =>
    match (studio.QueryByID lib coll (web.Params r "id")).out with
    | .fatal e =>
      ⟨.fatal e, (studio.QueryByID lib coll (web.Params r "id")).coll,
        .readParams :: (studio.QueryByID lib coll (web.Params r "id")).calls.map .store⟩
    | .crashed msg =>
      ⟨.crashed msg, (studio.QueryByID lib coll (web.Params r "id")).coll,
        .readParams :: (studio.QueryByID lib coll (web.Params r "id")).calls.map .store⟩
    | .ret (_, some err) =>
      ⟨.ret (.err (classify err ("ID: " ++ web.Params r "id"))),
        (studio.QueryByID lib coll (web.Params r "id")).coll,
        .readParams :: (studio.QueryByID lib coll (web.Params r "id")).calls.map .store⟩
    | .ret (usr, none) =>
      ⟨.ret (.respond usr http.StatusOK),
        (studio.QueryByID lib coll (web.Params r "id")).coll,
        .readParams :: (studio.QueryByID lib coll (web.Params r "id")).calls.map .store⟩

/-- Go `studioGroup.update`.  The text `%+v` of the `default` branch stands
for the formatted payload. -/
def update (lib : Lib) (coll : mongo.Collection) (r : web.Request studio.UpdateStudio) :
    web.HandlerRun Unit :=
  match r.values with
  | none => ⟨.ret (.err (.shutdown "web value missing from context")), coll, []⟩
  | some v =>
    match r.body with
    | .error err => ⟨.ret (.err (.wrap "unable to decode payload" err)), coll, [.decodeBody]⟩
    | .ok upd =>
      match (studio.Update lib coll (web.Params r "id") upd v.Now).out with
      | .fatal e =>
        ⟨.fatal e, (studio.Update lib coll (web.Params r "id") upd v.Now).coll,
          .decodeBody :: .readParams ::
            (studio.Update lib coll (web.Params r "id") upd v.Now).calls.map .store⟩
      | .crashed msg =>
        ⟨.crashed msg, (studio.Update lib coll (web.Params r "id") upd v.Now).coll,
          .decodeBody :: .readParams ::
            (studio.Update lib coll (web.Params r "id") upd v.Now).calls.map .store⟩
      | .ret (some err) =>
        ⟨.ret (.err (classify err ("ID: " ++ web.Params r "id" ++ "  User: %+v"))),
          (studio.Update lib coll (web.Params r "id") upd v.Now).coll,
          .decodeBody :: .readParams ::
            (studio.Update lib coll (web.Params r "id") upd v.Now).calls.map .store⟩
      | .ret none =>
        ⟨.ret (.respond () http.StatusNoContent),
          (studio.Update lib coll (web.Params r "id") upd v.Now).coll,
          .decodeBody :: .readParams ::
            (studio.Update lib coll (web.Params r "id") upd v.Now).calls.map .store⟩

/-- Go `studioGroup.delete`. -/
def delete {β : Type} (lib : Lib) (coll : mongo.Collection) (r : web.Request β) :
    web.HandlerRun Unit :=
  match r.values with
  | none => ⟨.ret (.err (.shutdown "web value missing from context")), coll, []⟩
  | some _ =>
    match r.claims with
    | none => ⟨.ret (.err (.new "claims missing from context")), coll, []⟩
    | some claims =>
      match (studio.Delete lib coll claims (web.Params r "id")).out with
      | .fatal e =>
        ⟨.fatal e, (studio.Delete lib coll claims (web.Params r "id")).coll,
          .readParams :: (studio.Delete lib coll claims (web.Params r "id")).calls.map .store⟩
      | .crashed msg =>
        ⟨.crashed msg, (studio.Delete lib coll claims (web.Params r "id")).coll,
          .readParams :: (studio.Delete lib coll claims (web.Params r "id")).calls.map .store⟩
      | .ret (some err) =>
        ⟨.ret (.err (classify err ("ID: " ++ web.Params r "id"))),
          (studio.Delete lib coll claims (web.Params r "id")).coll,
          .readParams :: (studio.Delete lib coll claims (web.Params r "id")).calls.map .store⟩
      | .ret none =>
        ⟨.ret (.respond () http.StatusNoContent),
          (studio.Delete lib coll claims (web.Params r "id")).coll,
          .readParams :: (studio.Delete lib coll claims (web.Params r "id")).calls.map .store⟩

end studioGroup

/-! ## `app/drop-api/handlers/handlers.go` -/

namespace mid

/-- The middleware constructors of `business/mid` that `handlers.API` calls. -/
inductive Middleware
  | Logger
  | Errors
  | Metrics
  | Panics
  | Authenticate
  | Authorize (role : String)
  deriving DecidableEq, Repr

end mid

namespace web

/-- The handler functions `handlers.API` registers. -/
inductive HandlerId
  | cg_readiness
  | cg_liveness
  | ug_query
  | ug_token
  | ug_queryByID
  | ug_create
  | ug_update
  | ug_delete
  | sg_query
  | sg_queryByLocation
  | sg_queryByID
  | sg_create
  | sg_update
  | sg_delete
  | corsPreflight
  deriving DecidableEq, Repr

/-- One registration: `debug` tells `HandleDebug` from `Handle`, `mw` is the
list of middleware given at the call. -/
structure Route where
  debug : Bool
  method : String
  path : String
  handler : HandlerId
  mw : List mid.Middleware
  deriving DecidableEq, Repr

/-- Go `web.App`: the application-wide middleware and the registrations, in
order. -/
structure App where
  mw : List mid.Middleware
  routes : List Route
  deriving DecidableEq, Repr

/-- Go `web.NewApp(shutdown, mw...)`. -/
def NewApp (mw : List mid.Middleware) : App := { mw := mw, routes := [] }

/-- Go `app.Handle(method, path, handler, mw...)`. -/
def App.Handle (a : App) (method path : String) (handler : HandlerId)
    (mw : List mid.Middleware) : App :=
  { a with routes := a.routes ++ [⟨false, method, path, handler, mw⟩] }

/-- Go `app.HandleDebug(method, path, handler)`. -/
def App.HandleDebug (a : App) (method path : String) (handler : HandlerId) : App :=
  { a with routes := a.routes ++ [⟨true, method, path, handler, []⟩] }

/-- A composed handler: the business handler, or a middleware around the next
handler. -/
inductive Handler
  | leaf (h : HandlerId)
  | wrapped (m : mid.Middleware) (next : Handler)
  deriving DecidableEq, Repr

/-- Modelled from the spec: `foundation/web` is not among the sources.  A list
of middleware is wrapped around a handler in order from outermost to
innermost: the first of the list is the outermost. -/
def wrapMiddleware (mw : List mid.Middleware) (handler : Handler) : Handler :=
  mw.foldr Handler.wrapped handler

/-- Modelled from the spec: `foundation/web` is not among the sources.  Each
route owns its composed chain: the application-wide middleware around the
middleware of the route around the business handler. -/
def App.chain (a : App) (r : Route) : Handler :=
  wrapMiddleware a.mw (wrapMiddleware r.mw (.leaf r.handler))

/-- The middleware `m` occurs somewhere in the chain. -/
def Handler.has (m : mid.Middleware) : Handler → Bool
  | .leaf _ => false
  | .wrapped m2 next => m2 == m || next.has m

/-- The middleware `outer` wraps the middleware `inner`: `inner` occurs in the
handler that some occurrence of `outer` delegates to. -/
def Handler.wraps (outer inner : mid.Middleware) : Handler → Bool
  | .leaf _ => false
  | .wrapped m next => (m == outer && next.has inner) || next.wraps outer inner

/-- The first registration for a method and path. -/
def App.route (a : App) (method path : String) : Option Route :=
  a.routes.find? (fun r => r.method == method && r.path == path)

end web

namespace handlers

/-- Go `handlers.Options`. -/
structure Options where
  corsOrigin : String := ""
  deriving DecidableEq, Repr

/-- Go `handlers.WithCORS(origin)`. -/
def WithCORS (origin : String) : Options → Options :=
  fun opts => { opts with corsOrigin := origin }

/-- Go `handlers.API`: the application with its middleware and every
registration, in the order of the source. -/
def API (options : List (Options → Options)) : web.App :=
  let opts : Options := options.foldl (fun o option => option o) {}
  let app := web.NewApp [.Logger, .Errors, .Metrics, .Panics]
  let app := app.HandleDebug http.MethodGet "/readiness" .cg_readiness
  let app := app.HandleDebug http.MethodGet "/liveness" .cg_liveness
  let app := app.Handle http.MethodGet "/v1/users/:page/:rows" .ug_query
    [.Authenticate, .Authorize auth.RoleAdmin]
  let app := app.Handle http.MethodGet "/v1/users/token/:kid" .ug_token []
  let app := app.Handle http.MethodGet "/v1/users/:id" .ug_queryByID [.Authenticate]
  let app := app.Handle http.MethodPost "/v1/users" .ug_create []
  let app := app.Handle http.MethodPut "/v1/users/:id" .ug_update
    [.Authenticate, .Authorize auth.RoleAdmin]
  let app := app.Handle http.MethodDelete "/v1/users/:id" .ug_delete
    [.Authenticate, .Authorize auth.RoleAdmin]
  let app := app.Handle http.MethodGet "/v1/studio/:page/:rows" .sg_query []
  let app := app.Handle http.MethodGet "/v1/studio/:page/:rows/:city" .sg_queryByLocation []
  let app := app.Handle http.MethodGet "/v1/studio/:id" .sg_queryByID []
  let app := app.Handle http.MethodPost "/v1/studio" .sg_create []
  let app := app.Handle http.MethodPut "/v1/studio/:id" .sg_update []
  let app := app.Handle http.MethodDelete "/v1/studio/:id" .sg_delete
    [.Authenticate, .Authorize auth.RoleAdmin]
  if opts.corsOrigin ≠ "" then app.Handle http.MethodOptions "/*" .corsPreflight []
  else app

end handlers

/-! ## Route-level middleware, as the spec describes it -/

namespace mid

/-- Modelled from the spec: the error `Authenticate` short-circuits with
(kind AuthenticationFailed, status 401). -/
def ErrUnauthenticated : Err := .request (.lib "authentication failed") 401

/-- Modelled from the spec: the error `Authorize` short-circuits with (kind
Forbidden, status 403). -/
def ErrForbidden : Err := .request (.lib "forbidden") http.StatusForbidden

/-- Modelled from the spec: the error of `Authorize` when the context holds no
claims. -/
def ErrClaimsMissing : Err := .new "claims missing from context"

/-- Modelled from the spec: `business/mid` is not among the sources.  Runs a
composed chain on a request whose bearer token parses to `token` (`none` when
parsing fails) with `ctx` the claims already in the context.  `Authenticate`
puts the parsed claims into the context or short-circuits; `Authorize role`
short-circuits with Forbidden exactly when the claims in the context lack
`role`; the other middleware always delegate.  The result is the business
handler reached and the claims it finds in the context. -/
def reach (token : Option auth.Claims) :
    web.Handler → Option auth.Claims → Except Err (web.HandlerId × Option auth.Claims)
  | .leaf h, ctx => .ok (h, ctx)
  | .wrapped .Authenticate next, _ =>
    match token with
    | some c => reach token next (some c)
    | none => .error ErrUnauthenticated
  | .wrapped (.Authorize role) next, ctx =>
    match ctx with
    | none => .error ErrClaimsMissing
    | some c => if c.Authorized role then reach token next (some c) else .error ErrForbidden
  | .wrapped _ next, ctx => reach token next ctx

end mid

/-! ## More of the document store: insertion and paged search -/

/-- Conversion of an integer to a Go `int` / `int64`: the value modulo 2^64 in
the signed range. -/
def int64wrap (x : Int) : Int := (x + 9223372036854775808) % 18446744073709551616 - 9223372036854775808

/-- The run-time error of a nil dereference. -/
def nilDereference : String :=
  "runtime error: invalid memory address or nil pointer dereference"

namespace mongo

/-- Go `options.MergeFindOptions`, which `Find` applies to the option sets it
is given: for every field, the last option set that sets it wins. -/
def MergeFindOptions (opts : List FindOptions) : FindOptions :=
  opts.foldl (fun acc o =>
    { Limit := match o.Limit with
        | some l => some l
        | none => acc.Limit
      Skip := match o.Skip with
        | some k => some k
        | none => acc.Skip }) {}

/-- The documents a search returns under merged options: the skip is dropped
from the front, then a non-zero limit keeps that many documents (a negative
limit counts by its absolute value) and limit 0 keeps all. -/
def page (o : FindOptions) (docs : List bson.D) : List bson.D :=
  match o.Limit with
  | some l =>
    if l = 0 then docs.drop ((o.Skip.getD 0).toNat)
    else (docs.drop ((o.Skip.getD 0).toNat)).take l.natAbs
  | none => docs.drop ((o.Skip.getD 0).toNat)

/-- Go `coll.Find(ctx, filter, opts...)` with the cursor read to its end: the
matching documents under the merged options. -/
def Collection.Find (c : Collection) (filter : bson.D) (opts : List FindOptions) :
    Except Err (List bson.D) :=
  match c.fault with
  | some e => .error e
  | none => .ok (page (MergeFindOptions opts) (c.docs.filter (fun d => bson.D.matches filter d)))

/-- Go `coll.InsertOne(ctx, doc)`: a broken connection or an `_id` that is
already stored is an error; otherwise the document is appended. -/
def Collection.InsertOne (c : Collection) (doc : bson.D) : Except Err Collection :=
  match c.fault with
  | some e => .error e
  | none =>
    if c.docs.any (fun d => bson.D.get d "_id" == bson.D.get doc "_id") then
      .error (.lib "E11000 duplicate key error")
    else .ok { c with docs := c.docs ++ [doc] }

/-- The call writes to the collection. -/
def Call.isWrite : Call → Bool
  | .InsertOne _ => true
  | .DeleteOne _ => true
  | .FindOneAndUpdate _ _ => true
  | .FindOne _ => false
  | .Find _ _ => false

end mongo

/-! ## `business/data/user/user.go`: Create, Update, Query -/

namespace user

/-- Encoding of a `user.Info` for `InsertOne`: `ID` under `_id`, every other
field under its lower-cased name; time fields as BSON datetimes. -/
def encodeInfo (usr : Info) : bson.D :=
  [("_id", .str usr.ID), ("name", .str usr.Name), ("email", .str usr.Email),
   ("roles", .strs usr.Roles), ("password", .str usr.Password),
   ("passwordhash", .bytes usr.PasswordHash),
   ("created_at", .ofTime usr.Created_at), ("updated_at", .ofTime usr.Updated_at)]

/-- The record `usr` that `User.Create` builds from its input, the generated
ID, the password hash and `now`. -/
def newInfo (lib : Lib) (nu : NewUser) (hash : List Nat) (now : time.Time) : Info :=
  { ID := lib.GenerateID
    Name := nu.Name
    Email := nu.Email
    PasswordHash := hash
    Password := nu.Password
    Roles := nu.Roles
    Created_at := now.UTC
    Updated_at := now.UTC }

/-- Go `User.Create`.  A failed `InsertOne` goes to `log.Fatal`. -/
def Create (lib : Lib) (coll : mongo.Collection) (nu : NewUser) (now : time.Time) :
    Run (Info × Option Err) :=
  match lib.CheckNewUser nu with
  | some err => ⟨.ret ({}, some (.wrap "validating data" err)), coll, []⟩
  | none =>
    match lib.GenerateFromPassword nu.Password with
    | .error err => ⟨.ret ({}, some (.wrap "generating password hash" err)), coll, []⟩
    | .ok hash =>
      match coll.InsertOne (encodeInfo (newInfo lib nu hash now)) with
      | .error e => ⟨.fatal e, coll, [.InsertOne (encodeInfo (newInfo lib nu hash now))]⟩
      | .ok coll2 =>
        ⟨.ret (newInfo lib nu hash now, none), coll2,
          [.InsertOne (encodeInfo (newInfo lib nu hash now))]⟩

/-- The filter of `User.Update`: `bson.D{{Key: "name", Value: uu.Name}}`. -/
def updateFilter (uu : UpdateUser) : bson.D := [("name", bson.ptr uu.Name)]

/-- The update document of `User.Update`, built once `*uu.Name`, `*uu.Email`
and `*uu.Password` have been read. -/
def updateDoc (name email : String) (roles : List String) (password : String)
    (passwordHash : List Nat) : bson.D :=
  [("$set", .doc
    [("name", .str name), ("email", .str email), ("roles", .strs roles),
     ("password", .str password), ("password_hash", .bytes passwordHash)])]

/-- The `if uu.Password != nil` block of `User.Update`: the new value of
`usr.PasswordHash`, or the error of `bcrypt.GenerateFromPassword`. -/
def updateHash (lib : Lib) (uu : UpdateUser) (usr : Info) : Except Err (List Nat) :=
  match uu.Password with
  | some pw => lib.GenerateFromPassword pw
  | none => .ok usr.PasswordHash

/-- Go `User.Update`.  The update document reads `*uu.Name`, `*uu.Email` and
`*uu.Password` in this order without a nil check; a nil pointer among them
raises the run-time panic of a nil dereference before anything is written. -/
def Update (lib : Lib) (coll : mongo.Collection) (claims : auth.Claims) (userID : String)
    (uu : UpdateUser) (_now : time.Time) : Run (Option Err) :=
  match lib.CheckID userID with
  | some _ => ⟨.ret (some ErrInvalidID), coll, []⟩
  | none =>
    match lib.CheckUpdateUser uu with
    | some err => ⟨.ret (some (.wrap "validating data" err)), coll, []⟩
    | none =>
      match (QueryByID lib coll claims userID).out with
      | .fatal e => ⟨.fatal e, coll, (QueryByID lib coll claims userID).calls⟩
      | .crashed msg => ⟨.crashed msg, coll, (QueryByID lib coll claims userID).calls⟩
      | .ret (_, some err) =>
        ⟨.ret (some (.wrap "updating user" err)), coll,
          (QueryByID lib coll claims userID).calls⟩
      | .ret (usr, none) =>
        match updateHash lib uu usr with
        | .error err =>
          ⟨.ret (some (.wrap "generating password hash" err)), coll,
            (QueryByID lib coll claims userID).calls⟩
        | .ok hash =>
          match uu.Name, uu.Email, uu.Password with
          | some name, some email, some password =>
            ⟨.ret none,
              (coll.FindOneAndUpdate (updateFilter uu)
                (updateDoc name email uu.Roles password hash)).2,
              (QueryByID lib coll claims userID).calls ++
                [.FindOneAndUpdate (updateFilter uu)
                  (updateDoc name email uu.Roles password hash)]⟩
          | _, _, _ =>
            ⟨.crashed nilDereference, coll, (QueryByID lib coll claims userID).calls⟩

/-- The two option sets `Query` passes to `Find`: the first carries the offset
`(pageNumber - 1) * rowsPerPage` as its limit, the second `rowsPerPage`. -/
def findOptions (pageNumber rowsPerPage : Int) : List mongo.FindOptions :=
  [{ Limit := some (int64wrap (int64wrap (pageNumber - 1) * rowsPerPage)) },
   { Limit := some rowsPerPage }]

/-- Go `User.Query`.  An error of `Find` is only printed; the nil cursor is
then read, which raises the run-time panic of a nil dereference.  A document
that fails to decode goes to `log.Fatal`. -/
def Query (coll : mongo.Collection) (pageNumber rowsPerPage : Int) :
    Run (List Info × Option Err) :=
  match coll.Find [("", .null)] (findOptions pageNumber rowsPerPage) with
  | .error _ =>
    ⟨.crashed nilDereference, coll,
      [.Find [("", .null)] (findOptions pageNumber rowsPerPage)]⟩
  | .ok docs =>
    match decodeAll docs with
    | .error err =>
      ⟨.fatal err, coll, [.Find [("", .null)] (findOptions pageNumber rowsPerPage)]⟩
    | .ok infos =>
      ⟨.ret (infos, none), coll,
        [.Find [("", .null)] (findOptions pageNumber rowsPerPage)]⟩

end user

/-! ## `business/data/studio/studio.go`: Create, Query, QueryByLocation -/

namespace studio

/-- Encoding of a `studio.Info` for `InsertOne`: `ID` under `_id`, every other
field under its lower-cased name; time fields as BSON datetimes. -/
def encodeInfo (std : Info) : bson.D :=
  [("_id", .str std.ID), ("name", .str std.Name), ("email", .str std.Email),
   ("socialhandle", .str std.SocialHandle), ("description", .str std.Description),
   ("created_at", .ofTime std.Created_at), ("city", .str std.City),
   ("state", .str std.State), ("country", .str std.Country),
   ("updated_at", .ofTime std.Updated_at)]

/-- The record `std` that `Studio.Create` builds from its input, the generated
ID and `now`. -/
def newInfo (lib : Lib) (ns : NewStudio) (now : time.Time) : Info :=
  { ID := lib.GenerateID
    Name := ns.Name
    Email := ns.Email
    SocialHandle := ns.SocialHandle
    City := ns.City
    Description := ns.Description
    State := ns.State
    Country := ns.Country
    Created_at := now.UTC }

/-- Go `Studio.Create`.  A failed `InsertOne` goes to `log.Fatal`. -/
def Create (lib : Lib) (coll : mongo.Collection) (ns : NewStudio) (now : time.Time) :
    Run (Info × Option Err) :=
  match lib.CheckNewStudio ns with
  | some err => ⟨.ret ({}, some (.wrap "validating data" err)), coll, []⟩
  | none =>
    match coll.InsertOne (encodeInfo (newInfo lib ns now)) with
    | .error e => ⟨.fatal e, coll, [.InsertOne (encodeInfo (newInfo lib ns now))]⟩
    | .ok coll2 =>
      ⟨.ret (newInfo lib ns now, none), coll2, [.InsertOne (encodeInfo (newInfo lib ns now))]⟩

/-- The two option sets `Query` and `QueryByLocation` pass to `Find`: the first
carries the offset `(pageNumber - 1) * rowsPerPage` as its limit, the second
`rowsPerPage`. -/
def findOptions (pageNumber rowsPerPage : Int) : List mongo.FindOptions :=
  [{ Limit := some (int64wrap (int64wrap (pageNumber - 1) * rowsPerPage)) },
   { Limit := some rowsPerPage }]

/-- The shared body of `Studio.Query` and `Studio.QueryByLocation` after the
filter is chosen.  An error of `Find` is only printed; the nil cursor is then
read, which raises the run-time panic of a nil dereference.  A document that
fails to decode goes to `log.Fatal`. -/
def find (coll : mongo.Collection) (filter : bson.D) (pageNumber rowsPerPage : Int) :
    Run (List Info × Option Err) :=
  match coll.Find filter (findOptions pageNumber rowsPerPage) with
  | .error _ =>
    ⟨.crashed nilDereference, coll, [.Find filter (findOptions pageNumber rowsPerPage)]⟩
  | .ok docs =>
    match decodeAll docs with
    | .error err =>
      ⟨.fatal err, coll, [.Find filter (findOptions pageNumber rowsPerPage)]⟩
    | .ok infos =>
      ⟨.ret (infos, none), coll, [.Find filter (findOptions pageNumber rowsPerPage)]⟩

/-- Go `Studio.Query`: the filter is `bson.D{{}}`. -/
def Query (coll : mongo.Collection) (pageNumber rowsPerPage : Int) :
    Run (List Info × Option Err) :=
  find coll [("", .null)] pageNumber rowsPerPage

/-- Go `Studio.QueryByLocation`: the filter is `bson.D{{Key: "city", Value: city}}`. -/
def QueryByLocation (coll : mongo.Collection) (pageNumber rowsPerPage : Int)
    (city : String) : Run (List Info × Option Err) :=
  find coll [("city", .str city)] pageNumber rowsPerPage

end studio

/-! ## `app/drop-api/handlers/studio.go`: query, queryByLocation, create -/

namespace studioGroup

/-- The part of `query` and `queryByLocation` after the page and row numbers
are parsed: the reply for the result of the business call. -/
def listReply (q : Run (List studio.Info × Option Err)) (effects : List web.Effect) :
    web.HandlerRun (List studio.Info) :=
  match q.out with
  | .fatal e => ⟨.fatal e, q.coll, effects ++ q.calls.map .store⟩
  | .crashed msg => ⟨.crashed msg, q.coll, effects ++ q.calls.map .store⟩
  | .ret (_, some err) =>
    ⟨.ret (.err (.wrap "unable to query for users" err)), q.coll,
      effects ++ q.calls.map .store⟩
  | .ret (users, none) =>
    ⟨.ret (.respond users http.StatusOK), q.coll, effects ++ q.calls.map .store⟩

/-- Go `studioGroup.query`; `Atoi` is `strconv.Atoi`. -/
def query {β : Type} (Atoi : String → Except Err Int) (coll : mongo.Collection)
    (r : web.Request β) : web.HandlerRun (List studio.Info) :=
  match r.values with
  | none => ⟨.ret (.err (.shutdown "web value missing from context")), coll, []⟩
  | some _ =>
    match Atoi (web.Params r "page") with
    | .error _ =>
      ⟨.ret (.err (.request (.new ("invalid page format: " ++ web.Params r "page"))
        http.StatusBadRequest)), coll, [.readParams]⟩
    | .ok pageNumber =>
      match Atoi (web.Params r "rows") with
      | .error _ =>
        ⟨.ret (.err (.request (.new ("invalid rows format: " ++ web.Params r "rows"))
          http.StatusBadRequest)), coll, [.readParams]⟩
      | .ok rowsPerPage =>
        listReply (studio.Query coll pageNumber rowsPerPage) [.readParams]

/-- Go `studioGroup.queryByLocation`; `Atoi` is `strconv.Atoi`. -/
def queryByLocation {β : Type} (Atoi : String → Except Err Int) (coll : mongo.Collection)
    (r : web.Request β) : web.HandlerRun (List studio.Info) :=
  match r.values with
  | none => ⟨.ret (.err (.shutdown "web value missing from context")), coll, []⟩
  | some _ =>
    match Atoi (web.Params r "page") with
    | .error _ =>
      ⟨.ret (.err (.request (.new ("invalid page format: " ++ web.Params r "page"))
        http.StatusBadRequest)), coll, [.readParams]⟩
    | .ok pageNumber =>
      match Atoi (web.Params r "rows") with
      | .error _ =>
        ⟨.ret (.err (.request (.new ("invalid rows format: " ++ web.Params r "rows"))
          http.StatusBadRequest)), coll, [.readParams]⟩
      | .ok rowsPerPage =>
        listReply (studio.QueryByLocation coll pageNumber rowsPerPage (web.Params r "city"))
          [.readParams]

/-- Go `studioGroup.create`.  The text `%+v` of the error message stands for
the formatted record. -/
def create (lib : Lib) (coll : mongo.Collection) (r : web.Request studio.NewStudio) :
    web.HandlerRun studio.Info :=
  match r.values with
  | none => ⟨.ret (.err (.shutdown "web value missing from context")), coll, []⟩
  | some v =>
    match r.body with
    | .error err => ⟨.ret (.err (.wrap "unable to decode payload" err)), coll, [.decodeBody]⟩
    | .ok ns =>
      match (studio.Create lib coll ns v.Now).out with
      | .fatal e =>
        ⟨.fatal e, (studio.Create lib coll ns v.Now).coll,
          .decodeBody :: (studio.Create lib coll ns v.Now).calls.map .store⟩
      | .crashed msg =>
        ⟨.crashed msg, (studio.Create lib coll ns v.Now).coll,
          .decodeBody :: (studio.Create lib coll ns v.Now).calls.map .store⟩
      | .ret (_, some err) =>
        ⟨.ret (.err (.wrap "User: %+v" err)), (studio.Create lib coll ns v.Now).coll,
          .decodeBody :: (studio.Create lib coll ns v.Now).calls.map .store⟩
      | .ret (std, none) =>
        ⟨.ret (.respond std http.StatusCreated), (studio.Create lib coll ns v.Now).coll,
          .decodeBody :: (studio.Create lib coll ns v.Now).calls.map .store⟩

end studioGroup

/-! ## `app/drop-api/handlers/check.go` -/

namespace checkGroup

/-- What the liveness handler reads from the process environment. -/
structure Env where
  /-- Result of `os.Hostname()`. -/
  hostname : Except Err String
  /-- Value of `os.Getenv(key)`; an unset variable reads as the empty string. -/
  getenv : String → String

/-- The anonymous struct `info` of the liveness handler. -/
structure Info where
  Status : String := ""
  Build : String := ""
  Host : String := ""
  Pod : String := ""
  PodIP : String := ""
  Node : String := ""
  Namespace : String := ""
  deriving DecidableEq, Repr

/-- The JSON object of an `info` value under its struct tags: every field is
tagged `omitempty`, so a field holding the empty string is left out. -/
def Info.json (i : Info) : List (String × String) :=
  [("status", i.Status), ("build", i.Build), ("host", i.Host), ("pod", i.Pod),
   ("podIP", i.PodIP), ("node", i.Node), ("namespace", i.Namespace)].filter
    (fun e => e.2 ≠ "")

/-- The JSON object a reply carries; an error reply carries none. -/
def body : web.Reply Info → List (String × String)
  | .respond data _ => data.json
  | .err _ => []

end checkGroup

/-! ## `app/drop-api/main.go` -/

namespace api

/-- What the blocking `select` of `run` receives. -/
inductive Received
  | serverError (err : Option Err)
  | shutdown (sig : String)
  deriving DecidableEq, Repr

/-- What the API process observes from the outside world during one run: the
results of the `conf` calls, the configured `cfg.Web.ShutdownTimeout`, the
results of the start-up steps, what the `select` receives, and the result of
`api.Shutdown(ctx)` for a context with the given timeout. -/
structure Env where
  parse : Option Err
  usage : Except Err String
  versionString : Except Err String
  confString : Except Err String
  ShutdownTimeout : Int
  newFS : Option Err
  authNew : Option Err
  newRawExporter : Option Err
  received : Received
  shutdownResult : Int → Option Err

/-- Steps of `run` on the outside world: lines written to standard output and
the calls on the HTTP server.  The informational log lines are left out. -/
inductive Step
  | println (s : String)
  | listenAndServe
  | Shutdown (timeout : Int)
  | Close
  deriving DecidableEq, Repr

/-- Go `errors.Wrap(err, msg)` on a possibly nil error: nil stays nil. -/
def wrapNil (err : Option Err) (msg : String) : Option Err :=
  match err with
  | some e => some (.wrap msg e)
  | none => none

/-- The `select` at the end of `run`, once the server is started. -/
def wait (env : Env) : List Step × Option Err :=
  match env.received with
  | .serverError err => ([], wrapNil err "server error")
  | .shutdown _ =>
    match env.shutdownResult env.ShutdownTimeout with
    | some err =>
      ([.Shutdown env.ShutdownTimeout, .Close],
        some (.wrap "could not stop server gracefully" err))
    | none => ([.Shutdown env.ShutdownTimeout], none)

/-- The function `run` of `app/drop-api/main.go`: its steps and the returned
error. -/
def run (env : Env) : List Step × Option Err :=
  match env.parse with
  | some err =>
    if err = conf.ErrHelpWanted then
      match env.usage with
      | .error e => ([], some (.wrap "generating config usage" e))
      | .ok usage => ([.println usage], none)
    else if err = conf.ErrVersionWanted then
      match env.versionString with
      | .error e => ([], some (.wrap "generating config version" e))
      | .ok version => ([.println version], none)
    else ([], some (.wrap "parsing config" err))
  | none =>
    match env.confString with
    | .error e => ([], some (.wrap "generating config for output" e))
    | .ok _ =>
      match env.newFS with
      | some e => ([], some (.wrap "reading keys" e))
      | none =>
        match env.authNew with
        | some e => ([], some (.wrap "constructing auth" e))
        | none =>
          match env.newRawExporter with
          | some e => ([], some (.wrap "creating new exporter" e))
          | none => (.listenAndServe :: (wait env).1, (wait env).2)

end api

/-! ## Concrete inputs -/

namespace sample

/-- A library instance: IDs are well-formed when they have the 36 characters
of a UUID; the password check accepts the one pair it is built for. -/
def lib : Lib :=
  { CheckID := fun id => if id.length = 36 then none else some (.lib "invalid UUID length")
    CheckNewUser := fun _ => none
    CheckUpdateUser := fun _ => none
    CheckNewStudio := fun _ => none
    CheckUpdateStudio := fun _ => none
    GenerateID := "00000000-0000-0000-0000-000000000009"
    GenerateFromPassword := fun _ => .ok [36, 50, 97]
    CompareHashAndPassword := fun hash password =>
      if hash = [36, 50, 97] ∧ password = "secret" then none
      else some (.lib "hashedPassword is not the hash of the given password") }

/-- ID of the stored user. -/
def id1 : String := "00000000-0000-0000-0000-000000000001"

/-- A well-formed ID no document carries. -/
def id2 : String := "00000000-0000-0000-0000-000000000002"

/-- A user collection with one user. -/
def users : mongo.Collection :=
  { docs := [[("_id", .str id1), ("name", .str "Ada"), ("email", .str "ada@example.com"),
              ("roles", .strs ["USER"]), ("passwordhash", .bytes [36, 50, 97])]] }

/-- Claims of the stored user: subject `id1`, role USER only. -/
def owner : auth.Claims := { Subject := id1, Roles := ["USER"] }

/-- An empty collection on a healthy connection. -/
def empty : mongo.Collection := {}

/-- A request with web values and non-admin claims and the route parameter
`id` set to the given text; the body decodes to the empty update. -/
def request (id : String) : web.Request studio.UpdateStudio :=
  { values := some {}, claims := some owner, params := [("id", id)], body := .ok {} }

/-- The GET route of a single studio, as registered. -/
def studioRoute : web.Route := ⟨false, "GET", "/v1/studio/:id", .sg_queryByID, []⟩

end sample

/-! ## More concrete inputs -/

namespace sample

/-- A run of the API process that starts up and then receives an interrupt;
the server does not stop within the configured five seconds. -/
def interrupted : api.Env :=
  { parse := none, usage := .ok "usage", versionString := .ok "version",
    confString := .ok "cfg", ShutdownTimeout := 5000000000,
    newFS := none, authNew := none, newRawExporter := none,
    received := .shutdown "interrupt",
    shutdownResult := fun _ => some (.lib "context deadline exceeded") }

/-- An update that names the studio and leaves every other field out. -/
def rename : studio.UpdateStudio := { Name := some "Blue Room" }

/-- A request without web values in its context. -/
def noValues (β : Type) (body : β) : web.Request β :=
  { values := none, claims := none, params := [("id", id1)], body := .ok body }

/-- An admin caller. -/
def admin : auth.Claims := { Subject := id2, Roles := ["ADMIN"] }

/-- A user update that sets the name and leaves e-mail and password out. -/
def nameOnly : user.UpdateUser := { Name := some "Ada L." }

/-- A new user. -/
def newUser : user.NewUser :=
  { Name := "Bob", Email := "bob@example.com", Roles := ["USER"], Password := "secret",
    PasswordConfirm := "secret" }

/-- A new studio. -/
def newStudio : studio.NewStudio :=
  { Name := "Blue Room", Email := "blue@example.com", City := "Lagos", State := "Lagos",
    Country := "NG" }

/-- A request to create `newStudio`, stamped with instant 7 in a local zone. -/
def createRequest : web.Request studio.NewStudio :=
  { values := some { TraceID := "t1", Now := ⟨7, "Local"⟩ }, claims := none, params := [],
    body := .ok newStudio }

end sample

/-! ## Theorems -/

/-- C1: in `drop-admin genkey`, when configuration parsing and key
generation both succeed, `run` still returns `commands.ErrHelp`, so `main`
prints the help line, logs no error and exits with code 1 (not 0). -/
theorem admin_genkey_success_exits_one (env : admin.Env) (out : String)
    (hparse : env.parse = none) (hcfg : env.confString = .ok out)
    (harg : env.arg0 = "genkey") (hgen : env.genKey = none) :
    admin.run env =
      ([.logConfig out, .println "genkey: generate a set of private/public key files"],
        some commands.ErrHelp) ∧
    admin.main env =
      ([.logConfig out, .println "genkey: generate a set of private/public key files"], 1) := by
  have hrun : admin.run env =
      ([.logConfig out, .println "genkey: generate a set of private/public key files"],
        some commands.ErrHelp) := by
    simp [admin.run, hparse, hcfg, harg, hgen]
  refine ⟨hrun, ?_⟩
  simp [admin.main, hrun, commands.ErrHelp, Err.Cause]

/-- Witness of C1 at the invocation `admin.genkeyOk`. -/
theorem admin_genkey_success_exits_one_witness :
    (admin.main admin.genkeyOk).2 = 1 :=
  congrArg Prod.snd
    (admin_genkey_success_exits_one admin.genkeyOk "cfg" rfl rfl rfl rfl).2

/-- In `drop-admin genkey`, when key generation fails with an error whose cause
is not the help sentinel, `main` logs the wrapped error and exits with code 1. -/
theorem admin_genkey_failure_exits_one (env : admin.Env) (out : String) (e : Err)
    (hparse : env.parse = none) (hcfg : env.confString = .ok out)
    (harg : env.arg0 = "genkey") (hgen : env.genKey = some e)
    (hcause : e.Cause ≠ commands.ErrHelp) :
    admin.main env =
      ([.logConfig out, .logError (.wrap "key generation" e)], 1) := by
  have hrun : admin.run env = ([.logConfig out], some (.wrap "key generation" e)) := by
    simp [admin.run, hparse, hcfg, harg, hgen]
  simp [admin.main, hrun, Err.Cause, hcause]

/-! ### Shared lemmas -/

/-- The registrations of `handlers.API`: the fixed table, followed by the CORS
preflight route when an origin is configured. -/
theorem api_routes_eq (options : List (handlers.Options → handlers.Options)) :
    (handlers.API options).routes = (handlers.API []).routes ∨
    (handlers.API options).routes =
      (handlers.API []).routes ++ [⟨false, http.MethodOptions, "/*", .corsPreflight, []⟩] := by
  by_cases h : (options.foldl (fun o option => option o) ({} : handlers.Options)).corsOrigin = ""
  · left
    simp [handlers.API, h, web.App.Handle, web.App.HandleDebug, web.NewApp]
  · right
    simp [handlers.API, h, web.App.Handle, web.App.HandleDebug, web.NewApp]

/-- The application-wide middleware does not depend on the options. -/
theorem api_mw_eq (options : List (handlers.Options → handlers.Options)) :
    (handlers.API options).mw = [.Logger, .Errors, .Metrics, .Panics] := by
  by_cases h : (options.foldl (fun o option => option o) ({} : handlers.Options)).corsOrigin = ""
  · simp [handlers.API, h, web.App.Handle, web.App.HandleDebug, web.NewApp]
  · simp [handlers.API, h, web.App.Handle, web.App.HandleDebug, web.NewApp]

/-- Every registration declares no middleware, `Authenticate` alone, or
`Authenticate` followed by `Authorize(RoleAdmin)`. -/
theorem api_route_mw_cases (options : List (handlers.Options → handlers.Options))
    (r : web.Route) (hr : r ∈ (handlers.API options).routes) :
    r.mw = [] ∨ r.mw = [.Authenticate] ∨ r.mw = [.Authenticate, .Authorize auth.RoleAdmin] := by
  have hbase : ∀ r ∈ (handlers.API []).routes,
      r.mw = [] ∨ r.mw = [.Authenticate] ∨
        r.mw = [.Authenticate, .Authorize auth.RoleAdmin] := by
    decide
  rcases api_routes_eq options with h | h
  · rw [h] at hr
    exact hbase r hr
  · rw [h, List.mem_append] at hr
    rcases hr with hr | hr
    · exact hbase r hr
    · left
      rw [List.mem_singleton] at hr
      rw [hr]

/-! ### Claims -/

/-- C2: for a well-formed user ID, `user.QueryByID` and `user.Delete` return
`ErrForbidden` if and only if the claims lack the admin role and the subject
differs from the requested ID; so an admin is never forbidden and a caller
whose subject equals the requested ID is never forbidden. -/
theorem user_forbidden_iff (lib : Lib) (coll : mongo.Collection) (claims : auth.Claims)
    (userID : String) (hid : lib.CheckID userID = none) :
    ((∃ i, (user.QueryByID lib coll claims userID).out = .ret (i, some user.ErrForbidden)) ↔
      (claims.Authorized auth.RoleAdmin = false ∧ claims.Subject ≠ userID)) ∧
    ((user.Delete lib coll claims userID).out = .ret (some user.ErrForbidden) ↔
      (claims.Authorized auth.RoleAdmin = false ∧ claims.Subject ≠ userID)) ∧
    (claims.Authorized auth.RoleAdmin = true ∨ claims.Subject = userID →
      (∀ i, (user.QueryByID lib coll claims userID).out ≠ .ret (i, some user.ErrForbidden)) ∧
      (user.Delete lib coll claims userID).out ≠ .ret (some user.ErrForbidden)) := by
  have hq : (∃ i, (user.QueryByID lib coll claims userID).out =
        .ret (i, some user.ErrForbidden)) ↔
      (claims.Authorized auth.RoleAdmin = false ∧ claims.Subject ≠ userID) := by
    unfold user.QueryByID
    rw [hid]
    by_cases hc : claims.Authorized auth.RoleAdmin = false ∧ claims.Subject ≠ userID
    · rw [if_pos hc]
      exact ⟨fun _ => hc, fun _ => ⟨_, rfl⟩⟩
    · simp only [if_neg hc, hc, iff_false]
      rintro ⟨i, hi⟩
      cases hf : coll.FindOne [("_id", bson.Value.str userID)] <;>
        rw [hf] at hi <;> simp at hi
  have hd : (user.Delete lib coll claims userID).out = .ret (some user.ErrForbidden) ↔
      (claims.Authorized auth.RoleAdmin = false ∧ claims.Subject ≠ userID) := by
    unfold user.Delete
    rw [hid]
    by_cases hc : claims.Authorized auth.RoleAdmin = false ∧ claims.Subject ≠ userID
    · rw [if_pos hc]
      exact ⟨fun _ => hc, fun _ => rfl⟩
    · simp only [if_neg hc, hc, iff_false]
      intro hi
      cases hf : coll.DeleteOne [("_id", bson.Value.str userID)] <;>
        rw [hf] at hi <;> simp at hi
  refine ⟨hq, hd, ?_⟩
  intro hallow
  have hnot : ¬ (claims.Authorized auth.RoleAdmin = false ∧ claims.Subject ≠ userID) := by
    rintro ⟨h1, h2⟩
    rcases hallow with h | h
    · rw [h1] at h
      exact Bool.noConfusion h
    · exact h2 h
  exact ⟨fun i hi => hnot (hq.mp ⟨i, hi⟩), fun hi => hnot (hd.mp hi)⟩

/-- Witness of C2: a non-admin asking to delete another user's ID is forbidden. -/
theorem user_forbidden_iff_witness :
    sample.lib.CheckID sample.id2 = none ∧
    (user.Delete sample.lib sample.users sample.owner sample.id2).out =
      .ret (some user.ErrForbidden) :=
  ⟨by decide,
   (user_forbidden_iff sample.lib sample.users sample.owner sample.id2
      (by decide)).2.1.mpr (by decide)⟩

/-- C3: every route registered by `handlers.API` declares a middleware list
that is empty, `[Authenticate]`, or `[Authenticate, Authorize(role)]`; so
wherever `Authorize` occurs in such a list, `Authenticate` stands before it. -/
theorem api_route_middleware_shapes (options : List (handlers.Options → handlers.Options))
    (r : web.Route) (hr : r ∈ (handlers.API options).routes) :
    (r.mw = [] ∨ r.mw = [.Authenticate] ∨ ∃ role, r.mw = [.Authenticate, .Authorize role]) ∧
    (∀ role, mid.Middleware.Authorize role ∈ r.mw →
      ∃ before after, r.mw = before ++ mid.Middleware.Authorize role :: after ∧
        mid.Middleware.Authenticate ∈ before) := by
  rcases api_route_mw_cases options r hr with h | h | h
  · refine ⟨Or.inl h, ?_⟩
    intro role hmem
    rw [h] at hmem
    simp at hmem
  · refine ⟨Or.inr (Or.inl h), ?_⟩
    intro role hmem
    rw [h] at hmem
    simp at hmem
  · refine ⟨Or.inr (Or.inr ⟨auth.RoleAdmin, h⟩), ?_⟩
    intro role hmem
    rw [h] at hmem
    simp at hmem
    refine ⟨[.Authenticate], [], ?_, by simp⟩
    rw [h, hmem]
    rfl

/-- Witness of C3 at the route `GET /v1/studio/:id` of the default options. -/
theorem api_route_middleware_shapes_witness :
    sample.studioRoute ∈ (handlers.API []).routes ∧
    (sample.studioRoute.mw = [] ∨ sample.studioRoute.mw = [.Authenticate] ∨
      ∃ role, sample.studioRoute.mw = [.Authenticate, .Authorize role]) :=
  ⟨by decide, (api_route_middleware_shapes [] sample.studioRoute (by decide)).1⟩

/-- C4, refuted as stated: the list handed to `web.NewApp` is not Logger, Panic
recovery, Metrics, Error translation, and on the route `GET /v1/studio/:id`
Panic recovery wraps neither Metrics nor Error translation. -/
theorem api_app_middleware_counterexample :
    (handlers.API []).mw ≠ [.Logger, .Panics, .Metrics, .Errors] ∧
    ((handlers.API []).chain sample.studioRoute).wraps .Panics .Metrics = false ∧
    ((handlers.API []).chain sample.studioRoute).wraps .Panics .Errors = false := by
  decide

/-- C4, as the code has it: the list handed to `web.NewApp` is, from outermost to
innermost, Logger, Error translation, Metrics, Panic recovery; so on every
route registered with `Handle`, Panic recovery is the innermost
application-wide stage: it wraps every route-level middleware and the business
handler, and is itself wrapped by Logger, Error translation and Metrics. -/
theorem api_app_middleware_order (options : List (handlers.Options → handlers.Options))
    (r : web.Route) (hr : r ∈ (handlers.API options).routes) :
    (handlers.API options).mw = [.Logger, .Errors, .Metrics, .Panics] ∧
    (handlers.API options).chain r =
      .wrapped .Logger (.wrapped .Errors (.wrapped .Metrics (.wrapped .Panics
        (web.wrapMiddleware r.mw (.leaf r.handler))))) ∧
    (∀ m ∈ r.mw, ((handlers.API options).chain r).wraps .Panics m = true) ∧
    ((handlers.API options).chain r).wraps .Errors .Panics = true ∧
    ((handlers.API options).chain r).wraps .Metrics .Panics = true ∧
    ((handlers.API options).chain r).wraps .Panics .Metrics = false ∧
    ((handlers.API options).chain r).wraps .Panics .Errors = false := by
  have hchain : (handlers.API options).chain r =
      .wrapped .Logger (.wrapped .Errors (.wrapped .Metrics (.wrapped .Panics
        (web.wrapMiddleware r.mw (.leaf r.handler))))) := by
    simp [web.App.chain, api_mw_eq options, web.wrapMiddleware]
  refine ⟨api_mw_eq options, hchain, ?_⟩
  rw [hchain]
  rcases api_route_mw_cases options r hr with h | h | h <;> rw [h] <;>
    simp [web.wrapMiddleware, web.Handler.wraps, web.Handler.has]

/-- Witness of C4 at the route `GET /v1/studio/:id`. -/
theorem api_app_middleware_order_witness :
    sample.studioRoute ∈ (handlers.API []).routes ∧
    (handlers.API []).chain sample.studioRoute =
      .wrapped .Logger (.wrapped .Errors (.wrapped .Metrics (.wrapped .Panics
        (.leaf .sg_queryByID)))) :=
  ⟨by decide, (api_app_middleware_order [] sample.studioRoute (by decide)).2.1⟩

/-- C5: for a studio ID that fails the ID-format check, the studio
handlers `queryByID`, `update` and `delete` return the error of the `default`
branch, a wrapped `studio.ErrInvalidID`, which the error translation maps to
500: the handlers compare against `database.ErrInvalidID`, a different error
value from the `studio.ErrInvalidID` the business layer returns. -/
theorem studio_invalid_id_unclassified (lib : Lib) (coll : mongo.Collection)
    (r : web.Request studio.UpdateStudio) (v : web.Values) (upd : studio.UpdateStudio)
    (c : auth.Claims) (e : Err)
    (hv : r.values = some v) (hb : r.body = .ok upd) (hc : r.claims = some c)
    (hid : lib.CheckID (web.Params r "id") = some e) :
    studio.ErrInvalidID ≠ database.ErrInvalidID ∧
    (studioGroup.queryByID lib coll r).reply =
      .ret (.err (.wrap ("ID: " ++ web.Params r "id") studio.ErrInvalidID)) ∧
    (studioGroup.update lib coll r).reply =
      .ret (.err (.wrap ("ID: " ++ web.Params r "id" ++ "  User: %+v") studio.ErrInvalidID)) ∧
    (studioGroup.delete lib coll r).reply =
      .ret (.err (.wrap ("ID: " ++ web.Params r "id") studio.ErrInvalidID)) ∧
    (∀ msg, web.translate (.wrap msg studio.ErrInvalidID) = http.StatusInternalServerError) := by
  have hcls : ∀ msg, studioGroup.classify studio.ErrInvalidID msg =
      .wrap msg studio.ErrInvalidID := by
    intro msg
    simp [studioGroup.classify, studio.ErrInvalidID, database.ErrInvalidID,
      database.ErrNotFound, Err.Cause]
  refine ⟨by decide, ?_, ?_, ?_, ?_⟩
  · simp [studioGroup.queryByID, hv, studio.QueryByID, hid, hcls]
  · simp [studioGroup.update, hv, hb, studio.Update, hid, hcls]
  · simp [studioGroup.delete, hv, hc, studio.Delete, hid, hcls]
  · intro msg
    simp [web.translate, Err.Cause, studio.ErrInvalidID]

/-- Witness of C5 at the route parameter `id = "xyz"`. -/
theorem studio_invalid_id_unclassified_witness :
    sample.lib.CheckID (web.Params (sample.request "xyz") "id") =
      some (.lib "invalid UUID length") ∧
    (studioGroup.queryByID sample.lib sample.empty (sample.request "xyz")).reply =
      .ret (.err (.wrap "ID: xyz" studio.ErrInvalidID)) :=
  ⟨by decide,
   (studio_invalid_id_unclassified sample.lib sample.empty (sample.request "xyz") {} {}
      sample.owner (.lib "invalid UUID length") rfl rfl rfl (by decide)).2.1⟩

/-- The first-match search finds nothing when no document matches. -/
theorem find_none_of_no_match (docs : List bson.D) (filter : bson.D)
    (hnone : ∀ d ∈ docs, bson.D.matches filter d = false) :
    docs.find? (fun d => bson.D.matches filter d) = none := by
  rw [List.find?_eq_none]
  intro d hd
  simp [hnone d hd]

/-- C6: for a well-formed studio ID for which the store holds no
document, `Studio.QueryByID` returns the zero-valued `Info` with a nil error,
and the `queryByID` handler answers with status 200 and that zero-valued
record; no NotFound error is produced. -/
theorem studio_query_missing_document {β : Type} (lib : Lib) (coll : mongo.Collection)
    (r : web.Request β) (v : web.Values)
    (hv : r.values = some v)
    (hid : lib.CheckID (web.Params r "id") = none)
    (hnone : ∀ d ∈ coll.docs,
      bson.D.matches [("_id", .str (web.Params r "id"))] d = false) :
    (studio.QueryByID lib coll (web.Params r "id")).out = .ret ({}, none) ∧
    (studioGroup.queryByID lib coll r).reply = .ret (.respond {} http.StatusOK) := by
  have hfind : ∃ err, coll.FindOne [("_id", .str (web.Params r "id"))] = .error err := by
    unfold mongo.Collection.FindOne
    cases hf : coll.fault with
    | some e => exact ⟨e, rfl⟩
    | none =>
      refine ⟨mongo.ErrNoDocuments, ?_⟩
      simp only [find_none_of_no_match coll.docs _ hnone]
  obtain ⟨err, herr⟩ := hfind
  have hq : (studio.QueryByID lib coll (web.Params r "id")).out = .ret ({}, none) := by
    simp [studio.QueryByID, hid, herr]
  refine ⟨hq, ?_⟩
  simp [studioGroup.queryByID, hv, hq]

/-- Witness of C6: the empty store and the well-formed ID `sample.id2`. -/
theorem studio_query_missing_document_witness :
    (studioGroup.queryByID sample.lib sample.empty (sample.request sample.id2)).reply =
      .ret (.respond {} http.StatusOK) :=
  (studio_query_missing_document sample.lib sample.empty (sample.request sample.id2) {}
    rfl (by decide) (by intro d hd; cases hd)).2

/-- When the password comparison rejects the empty hash and accepts the hash
of the record `Authenticate` compares against, that record was found in the
store. -/
theorem auth_user_found (lib : Lib) (coll : mongo.Collection) (email password : String)
    (hrej : ∀ pw, lib.CompareHashAndPassword [] pw ≠ none)
    (hok : lib.CompareHashAndPassword (user.authUser coll email).PasswordHash password = none) :
    ∃ d, coll.FindOne [("email", .str email)] = .ok d ∧
      user.authUser coll email = user.decodeInfo d := by
  cases hf : coll.FindOne [("email", .str email)] with
  | ok d => exact ⟨d, rfl, by simp [user.authUser, hf]⟩
  | error err =>
    have hz : (user.authUser coll email).PasswordHash = [] := by
      simp [user.authUser, hf]
    rw [hz] at hok
    exact absurd hok (hrej password)

/-- Truncation to microseconds commutes with adding one hour. -/
theorem jwt_at_add_hour (now : time.Time) :
    (jwt.At (now.Add time.Hour)).nsec = (jwt.At now).nsec + 3600000000000 := by
  simp only [jwt.At, jwt.TimePrecision, time.Microsecond, time.Time.Truncate, time.Time.Add,
    time.Hour]
  norm_num
  omega

/-- C7, refuted as stated: authenticating at an instant with a sub-microsecond
part (5 ns) succeeds with `IssuedAt` different from `now` and `ExpiresAt`
different from `now` plus one hour. -/
theorem authenticate_time_counterexample :
    ∃ c, (user.Authenticate sample.lib sample.users ⟨5, "UTC"⟩ "ada@example.com"
        "secret").out = .ret (c, none) ∧
      c.IssuedAt = some ⟨0, "UTC"⟩ ∧ c.IssuedAt ≠ some ⟨5, "UTC"⟩ ∧
      c.ExpiresAt = some ⟨3600000000000, "UTC"⟩ ∧
      c.ExpiresAt ≠ some (time.Time.Add ⟨5, "UTC"⟩ time.Hour) :=
  ⟨_, rfl, by decide, by decide, by decide, by decide⟩

/-- C7, as the code has it: every Claims value of a successful
`user.Authenticate` has `IssuedAt` equal to `now` truncated to microseconds
and `ExpiresAt` equal to `now` plus one hour truncated to microseconds, which
is `IssuedAt` plus exactly one hour, hence `ExpiresAt` after `IssuedAt`; when
`now` has no sub-microsecond part they are `now` and `now` plus one hour; the
subject and roles are the ID and roles of the record the password was compared
against, which is the stored user found by e-mail whenever the password
comparison rejects the empty hash. -/
theorem authenticate_claims (lib : Lib) (coll : mongo.Collection) (now : time.Time)
    (email password : String) (c : auth.Claims)
    (h : (user.Authenticate lib coll now email password).out = .ret (c, none)) :
    c.IssuedAt = some (jwt.At now) ∧
    c.ExpiresAt = some (jwt.At (now.Add time.Hour)) ∧
    jwt.At now = { now with nsec := now.nsec - now.nsec % 1000 } ∧
    (jwt.At (now.Add time.Hour)).nsec = (jwt.At now).nsec + 3600000000000 ∧
    (jwt.At (now.Add time.Hour)).After (jwt.At now) = true ∧
    (now.nsec % 1000 = 0 →
      c.IssuedAt = some now ∧ c.ExpiresAt = some (now.Add time.Hour)) ∧
    c.Subject = (user.authUser coll email).ID ∧
    c.Roles = (user.authUser coll email).Roles ∧
    ((∀ pw, lib.CompareHashAndPassword [] pw ≠ none) →
      ∃ d, coll.FindOne [("email", .str email)] = .ok d ∧
        c.Subject = (user.decodeInfo d).ID ∧ c.Roles = (user.decodeInfo d).Roles) := by
  unfold user.Authenticate at h
  cases hcmp : lib.CompareHashAndPassword (user.authUser coll email).PasswordHash password with
  | some err =>
    rw [hcmp] at h
    simp at h
  | none =>
    rw [hcmp] at h
    simp only [Outcome.ret.injEq, Prod.mk.injEq, and_true] at h
    subst h
    have hat : ∀ t : time.Time, jwt.At t = { t with nsec := t.nsec - t.nsec % 1000 } := by
      intro t
      simp [jwt.At, jwt.TimePrecision, time.Microsecond, time.Time.Truncate]
    refine ⟨rfl, rfl, hat now, jwt_at_add_hour now, ?_, ?_, rfl, rfl, ?_⟩
    · simp only [time.Time.After, jwt_at_add_hour now, decide_eq_true_eq]
      omega
    · intro hmul
      have h1 : jwt.At now = now := by
        rw [hat now, hmul]
        simp
      have h2 : jwt.At (now.Add time.Hour) = now.Add time.Hour := by
        rw [hat (now.Add time.Hour)]
        have : (now.Add time.Hour).nsec % 1000 = 0 := by
          simp only [time.Time.Add, time.Hour]
          omega
        rw [this]
        simp
      exact ⟨by rw [h1], by rw [h2]⟩
    · intro hrej
      obtain ⟨d, hd, hu⟩ := auth_user_found lib coll email password hrej hcmp
      exact ⟨d, hd, by rw [← hu], by rw [← hu]⟩

/-- Witness of C7: the stored user authenticates with the right password at
instant 1005 ns, which the claims carry as 1000 ns and one hour later. -/
theorem authenticate_claims_witness :
    (user.Authenticate sample.lib sample.users ⟨1005, "UTC"⟩ "ada@example.com" "secret").out =
      .ret ({ Issuer := "drop project", Subject := sample.id1,
              ExpiresAt := some ⟨3600000001000, "UTC"⟩, IssuedAt := some ⟨1000, "UTC"⟩,
              Roles := ["USER"] }, none) ∧
    (jwt.At (time.Time.Add ⟨1005, "UTC"⟩ time.Hour)).After (jwt.At ⟨1005, "UTC"⟩) = true :=
  ⟨rfl,
   (authenticate_claims sample.lib sample.users ⟨1005, "UTC"⟩ "ada@example.com" "secret"
      { Issuer := "drop project", Subject := sample.id1,
        ExpiresAt := some ⟨3600000001000, "UTC"⟩, IssuedAt := some ⟨1000, "UTC"⟩,
        Roles := ["USER"] } rfl).2.2.2.2.1⟩

/-- C8: assuming the password comparison rejects the empty hash, an e-mail
that matches no stored user and a known e-mail with a wrong password both make
`user.Authenticate` return the empty Claims with
`database.ErrAuthenticationFailure`; and whatever the inputs, that is the only
error `Authenticate` returns, and it never ends the process. -/
theorem authenticate_failures_indistinguishable (lib : Lib) (coll : mongo.Collection)
    (now : time.Time) (email password : String)
    (hrej : ∀ pw, lib.CompareHashAndPassword [] pw ≠ none) :
    ((∀ d, coll.FindOne [("email", .str email)] ≠ .ok d) →
      (user.Authenticate lib coll now email password).out =
        .ret ({}, some database.ErrAuthenticationFailure)) ∧
    (∀ d, coll.FindOne [("email", .str email)] = .ok d →
      lib.CompareHashAndPassword (user.decodeInfo d).PasswordHash password ≠ none →
      (user.Authenticate lib coll now email password).out =
        .ret ({}, some database.ErrAuthenticationFailure)) ∧
    (∀ c err, (user.Authenticate lib coll now email password).out = .ret (c, some err) →
      c = {} ∧ err = database.ErrAuthenticationFailure) ∧
    (∀ err, (user.Authenticate lib coll now email password).out ≠ .fatal err) := by
  refine ⟨?_, ?_, ?_, ?_⟩
  · intro hmiss
    have hz : (user.authUser coll email).PasswordHash = [] := by
      unfold user.authUser
      cases hf : coll.FindOne [("email", .str email)] with
      | ok d => exact absurd hf (hmiss d)
      | error err => rfl
    unfold user.Authenticate
    rw [hz]
    cases hcmp : lib.CompareHashAndPassword [] password with
    | some err => rfl
    | none => exact absurd hcmp (hrej password)
  · intro d hd hbad
    have hu : user.authUser coll email = user.decodeInfo d := by
      simp [user.authUser, hd]
    unfold user.Authenticate
    rw [hu]
    cases hcmp : lib.CompareHashAndPassword (user.decodeInfo d).PasswordHash password with
    | some err => rfl
    | none => exact absurd hcmp hbad
  · intro c err h
    unfold user.Authenticate at h
    cases hcmp : lib.CompareHashAndPassword (user.authUser coll email).PasswordHash
        password with
    | some e2 =>
      rw [hcmp] at h
      simp only [Outcome.ret.injEq, Prod.mk.injEq, Option.some.injEq] at h
      exact ⟨h.1.symm, h.2.symm⟩
    | none =>
      rw [hcmp] at h
      simp at h
  · intro err h
    unfold user.Authenticate at h
    cases hcmp : lib.CompareHashAndPassword (user.authUser coll email).PasswordHash
        password with
    | some e2 =>
      rw [hcmp] at h
      simp at h
    | none =>
      rw [hcmp] at h
      simp at h

/-- Witness of C8: an unknown e-mail and a wrong password give the same result. -/
theorem authenticate_failures_indistinguishable_witness :
    (user.Authenticate sample.lib sample.users {} "nobody@example.com" "secret").out =
      .ret ({}, some database.ErrAuthenticationFailure) ∧
    (user.Authenticate sample.lib sample.users {} "ada@example.com" "guess").out =
      .ret ({}, some database.ErrAuthenticationFailure) :=
  ⟨(authenticate_failures_indistinguishable sample.lib sample.users {} "nobody@example.com"
      "secret" (by intro pw; simp [sample.lib])).1
        (fun d h => Except.noConfusion
          (show (Except.error mongo.ErrNoDocuments : Except Err bson.D) = .ok d from h)),
   (authenticate_failures_indistinguishable sample.lib sample.users {} "ada@example.com"
      "guess" (by intro pw; simp [sample.lib])).2.1 _ rfl (by decide)⟩

/-- A route found in the table of the default options is found, unchanged,
whatever the options. -/
theorem api_route_lookup (options : List (handlers.Options → handlers.Options))
    (method path : String) (r : web.Route)
    (h : (handlers.API []).route method path = some r) :
    (handlers.API options).route method path = some r := by
  unfold web.App.route at h ⊢
  rcases api_routes_eq options with e | e
  · rw [e]
    exact h
  · rw [e, List.find?_append, h]
    rfl

/-- The composed chain of a route does not depend on the options. -/
theorem api_chain_eq (options : List (handlers.Options → handlers.Options)) (r : web.Route) :
    (handlers.API options).chain r = (handlers.API []).chain r := by
  simp [web.App.chain, api_mw_eq]

/-- C9, refuted as stated: a non-admin caller with subject `id1` and a valid
token is rejected with Forbidden by the middleware declared on
`PUT /v1/users/:id`, although the subject equals the addressed ID. -/
theorem owner_rejected_on_put_counterexample :
    sample.owner.Subject = sample.id1 ∧
    sample.owner.Authorized auth.RoleAdmin = false ∧
    ((handlers.API []).route http.MethodPut "/v1/users/:id").map
        (fun r => mid.reach (some sample.owner) ((handlers.API []).chain r) none) =
      some (.error mid.ErrForbidden) :=
  ⟨rfl, by decide, rfl⟩

/-- C9, as the code has it: for an authenticated non-admin caller whose token subject
equals `:id`, the middleware declared on `GET /v1/users/:id` (`Authenticate`
only) lets the request through to the handler with the caller's claims in the
context, while the middleware declared on `PUT` and `DELETE /v1/users/:id`
(`Authenticate`, then `Authorize(ADMIN)`) rejects it with Forbidden. -/
theorem owner_user_routes (options : List (handlers.Options → handlers.Options))
    (c : auth.Claims) (id : String) (_hsub : c.Subject = id)
    (hadmin : c.Authorized auth.RoleAdmin = false) :
    (∃ r, (handlers.API options).route http.MethodGet "/v1/users/:id" = some r ∧
      r.mw = [.Authenticate] ∧
      mid.reach (some c) ((handlers.API options).chain r) none =
        .ok (.ug_queryByID, some c)) ∧
    (∃ r, (handlers.API options).route http.MethodPut "/v1/users/:id" = some r ∧
      r.mw = [.Authenticate, .Authorize auth.RoleAdmin] ∧
      mid.reach (some c) ((handlers.API options).chain r) none = .error mid.ErrForbidden) ∧
    (∃ r, (handlers.API options).route http.MethodDelete "/v1/users/:id" = some r ∧
      r.mw = [.Authenticate, .Authorize auth.RoleAdmin] ∧
      mid.reach (some c) ((handlers.API options).chain r) none = .error mid.ErrForbidden) := by
  refine ⟨⟨⟨false, http.MethodGet, "/v1/users/:id", .ug_queryByID, [.Authenticate]⟩,
      api_route_lookup options _ _ _ rfl, rfl, ?_⟩,
    ⟨⟨false, http.MethodPut, "/v1/users/:id", .ug_update,
      [.Authenticate, .Authorize auth.RoleAdmin]⟩,
      api_route_lookup options _ _ _ rfl, rfl, ?_⟩,
    ⟨⟨false, http.MethodDelete, "/v1/users/:id", .ug_delete,
      [.Authenticate, .Authorize auth.RoleAdmin]⟩,
      api_route_lookup options _ _ _ rfl, rfl, ?_⟩⟩
  · rw [api_chain_eq]
    rfl
  · rw [api_chain_eq]
    simp [web.App.chain, web.wrapMiddleware, handlers.API, web.NewApp, web.App.Handle,
      web.App.HandleDebug, mid.reach, hadmin]
  · rw [api_chain_eq]
    simp [web.App.chain, web.wrapMiddleware, handlers.API, web.NewApp, web.App.Handle,
      web.App.HandleDebug, mid.reach, hadmin]

/-- Witness of C9: the caller `sample.owner` on `GET /v1/users/:id`. -/
theorem owner_user_routes_witness :
    sample.owner.Authorized auth.RoleAdmin = false ∧
    ((handlers.API []).route http.MethodGet "/v1/users/:id").map
        (fun r => mid.reach (some sample.owner) ((handlers.API []).chain r) none) =
      some (.ok (.ug_queryByID, some sample.owner)) :=
  ⟨by decide, by
    obtain ⟨r, hr, _, hreach⟩ :=
      (owner_user_routes [] sample.owner sample.id1 rfl (by decide)).1
    rw [hr, Option.map_some', hreach]⟩

/-- Called with claims that lack the admin role and a well-formed studio ID,
the studio delete handler issues no store call and returns the error of the
`default` branch, a wrapped `studio.ErrForbidden`, which the error translation
maps to 500. -/
theorem studio_delete_handler_without_admin {β : Type} (lib : Lib)
    (coll : mongo.Collection) (r : web.Request β) (v : web.Values) (c : auth.Claims)
    (hv : r.values = some v) (hc : r.claims = some c)
    (hid : lib.CheckID (web.Params r "id") = none)
    (hadmin : c.Authorized auth.RoleAdmin = false) :
    (studio.Delete lib coll c (web.Params r "id")).out = .ret (some studio.ErrForbidden) ∧
    (studio.Delete lib coll c (web.Params r "id")).calls = [] ∧
    (studioGroup.delete lib coll r).reply =
      .ret (.err (.wrap ("ID: " ++ web.Params r "id") studio.ErrForbidden)) ∧
    web.translate (.wrap ("ID: " ++ web.Params r "id") studio.ErrForbidden) =
      http.StatusInternalServerError ∧
    web.translate (.wrap ("ID: " ++ web.Params r "id") studio.ErrForbidden) ≠
      http.StatusForbidden := by
  have hcls : ∀ msg, studioGroup.classify studio.ErrForbidden msg =
      .wrap msg studio.ErrForbidden := by
    intro msg
    simp [studioGroup.classify, studio.ErrForbidden, database.ErrInvalidID,
      database.ErrNotFound, Err.Cause]
  have hdel : (studio.Delete lib coll c (web.Params r "id")).out =
      .ret (some studio.ErrForbidden) := by
    simp [studio.Delete, hid, hadmin]
  have htr : web.translate (.wrap ("ID: " ++ web.Params r "id") studio.ErrForbidden) =
      http.StatusInternalServerError := by
    simp [web.translate, Err.Cause, studio.ErrForbidden]
  refine ⟨hdel, by simp [studio.Delete, hid, hadmin], ?_, htr, ?_⟩
  · simp [studioGroup.delete, hv, hc, hdel, hcls]
  · rw [htr]
    decide

/-- C12: in `run` of the API process, once start-up has succeeded and the
`select` receives a shutdown signal, `Shutdown` is invoked exactly once, with
the configured `ShutdownTimeout`; if it fails the server is force-closed and
`run` returns the wrapped error, and if it succeeds the server is not
force-closed and `run` returns nil. -/
theorem run_shutdown (env : api.Env) (out sig : String)
    (hparse : env.parse = none) (hcfg : env.confString = .ok out)
    (hfs : env.newFS = none) (hauth : env.authNew = none)
    (hexp : env.newRawExporter = none) (hsig : env.received = .shutdown sig) :
    (∀ err, env.shutdownResult env.ShutdownTimeout = some err →
      api.run env =
        ([.listenAndServe, .Shutdown env.ShutdownTimeout, .Close],
          some (.wrap "could not stop server gracefully" err))) ∧
    (env.shutdownResult env.ShutdownTimeout = none →
      api.run env = ([.listenAndServe, .Shutdown env.ShutdownTimeout], none) ∧
      api.Step.Close ∉ (api.run env).1) ∧
    (api.run env).1.filter (fun s => s != .listenAndServe && s != .Close) =
      [.Shutdown env.ShutdownTimeout] := by
  have hrun : api.run env = (.listenAndServe :: (api.wait env).1, (api.wait env).2) := by
    simp [api.run, hparse, hcfg, hfs, hauth, hexp]
  rw [hrun]
  cases hres : env.shutdownResult env.ShutdownTimeout with
  | some err =>
    simp [api.wait, hsig, hres]
  | none =>
    simp [api.wait, hsig, hres]

/-- Witness of C12: the run `sample.interrupted`, whose server does not stop
in time. -/
theorem run_shutdown_witness :
    api.run sample.interrupted =
      ([.listenAndServe, .Shutdown 5000000000, .Close],
        some (.wrap "could not stop server gracefully" (.lib "context deadline exceeded"))) :=
  (run_shutdown sample.interrupted "cfg" "interrupt" rfl rfl rfl rfl rfl rfl).1 _ rfl

/-! ### Studio update, creation, missing web values -/

/-- For a well-formed ID, `Studio.QueryByID` returns a nil error after one
`FindOne` by `_id`. -/
theorem studio_queryByID_ok (lib : Lib) (coll : mongo.Collection) (studioID : String)
    (hid : lib.CheckID studioID = none) :
    (∃ i, (studio.QueryByID lib coll studioID).out = .ret (i, none)) ∧
    (studio.QueryByID lib coll studioID).calls = [.FindOne [("_id", .str studioID)]] := by
  unfold studio.QueryByID
  rw [hid]
  cases hf : coll.FindOne [("_id", bson.Value.str studioID)] with
  | ok d => exact ⟨⟨_, rfl⟩, rfl⟩
  | error err => exact ⟨⟨_, rfl⟩, rfl⟩

/-- The calls of `Studio.Update` for a well-formed ID and a valid update: the
lookup by `_id`, then the find-and-update by name. -/
theorem studio_update_calls (lib : Lib) (coll : mongo.Collection) (studioID : String)
    (us : studio.UpdateStudio) (now : time.Time)
    (hid : lib.CheckID studioID = none) (hus : lib.CheckUpdateStudio us = none) :
    (studio.Update lib coll studioID us now).out = .ret none ∧
    (studio.Update lib coll studioID us now).calls =
      [.FindOne [("_id", .str studioID)],
       .FindOneAndUpdate [("name", bson.ptr us.Name)] (studio.updateDoc us)] := by
  obtain ⟨⟨i, hi⟩, hc⟩ := studio_queryByID_ok lib coll studioID hid
  unfold studio.Update
  rw [hid, hus]
  simp [hi, hc, studio.updateFilter]

/-- C13: `Studio.Update` selects the document by a filter on `name` set to the
update's `Name`, not by the studio ID: for two well-formed studio IDs and the
same valid update, the find-and-update requests sent to the store are the same
single request, whose filter is `name = us.Name`. -/
theorem studio_update_request_by_name (lib : Lib) (coll : mongo.Collection)
    (id1 id2 : String) (us : studio.UpdateStudio) (now : time.Time)
    (h1 : lib.CheckID id1 = none) (h2 : lib.CheckID id2 = none)
    (hus : lib.CheckUpdateStudio us = none) :
    (studio.Update lib coll id1 us now).calls.filter mongo.Call.isWrite =
      [.FindOneAndUpdate [("name", bson.ptr us.Name)] (studio.updateDoc us)] ∧
    (studio.Update lib coll id1 us now).calls.filter mongo.Call.isWrite =
      (studio.Update lib coll id2 us now).calls.filter mongo.Call.isWrite := by
  rw [(studio_update_calls lib coll id1 us now h1 hus).2,
    (studio_update_calls lib coll id2 us now h2 hus).2]
  exact ⟨rfl, rfl⟩

/-- Witness of C13: the update `sample.rename` addressed to two different IDs. -/
theorem studio_update_request_by_name_witness :
    sample.id1 ≠ sample.id2 ∧
    (studio.Update sample.lib sample.empty sample.id1 sample.rename {}).calls.filter
        mongo.Call.isWrite =
      (studio.Update sample.lib sample.empty sample.id2 sample.rename {}).calls.filter
        mongo.Call.isWrite :=
  ⟨by decide,
   (studio_update_request_by_name sample.lib sample.empty sample.id1 sample.id2
      sample.rename {} (by decide) (by decide) rfl).2⟩

/-- C14: the record a Create operation builds takes every time field it sets
from `now` converted to UTC (studio: `Created_at`; user: `Created_at` and
`Updated_at`, equal to each other); that record is the one inserted and, when
the insertion succeeds, returned; and the studio create handler passes the
timestamp `Now` of the request's web values as `now`. -/
theorem create_time_fields (lib : Lib) (coll : mongo.Collection) (ns : studio.NewStudio)
    (nu : user.NewUser) (hash : List Nat) (now : time.Time)
    (r : web.Request studio.NewStudio) (v : web.Values)
    (hns : lib.CheckNewStudio ns = none) (hnu : lib.CheckNewUser nu = none)
    (hhash : lib.GenerateFromPassword nu.Password = .ok hash)
    (hv : r.values = some v) (hb : r.body = .ok ns) :
    (studio.newInfo lib ns now).Created_at = now.UTC ∧
    (studio.Create lib coll ns now).calls =
      [.InsertOne (studio.encodeInfo (studio.newInfo lib ns now))] ∧
    (∀ coll2, coll.InsertOne (studio.encodeInfo (studio.newInfo lib ns now)) = .ok coll2 →
      (studio.Create lib coll ns now).out = .ret (studio.newInfo lib ns now, none)) ∧
    (user.newInfo lib nu hash now).Created_at = now.UTC ∧
    (user.newInfo lib nu hash now).Updated_at = now.UTC ∧
    (user.newInfo lib nu hash now).Created_at = (user.newInfo lib nu hash now).Updated_at ∧
    (user.Create lib coll nu now).calls =
      [.InsertOne (user.encodeInfo (user.newInfo lib nu hash now))] ∧
    (∀ coll2, coll.InsertOne (user.encodeInfo (user.newInfo lib nu hash now)) = .ok coll2 →
      (user.Create lib coll nu now).out = .ret (user.newInfo lib nu hash now, none)) ∧
    (studioGroup.create lib coll r).effects =
      [.decodeBody, .store (.InsertOne (studio.encodeInfo (studio.newInfo lib ns v.Now)))] ∧
    (∀ coll2, coll.InsertOne (studio.encodeInfo (studio.newInfo lib ns v.Now)) = .ok coll2 →
      (studioGroup.create lib coll r).reply =
        .ret (.respond (studio.newInfo lib ns v.Now) http.StatusCreated) ∧
      (studio.newInfo lib ns v.Now).Created_at = v.Now.UTC) := by
  have hsc : ∀ t, (studio.Create lib coll ns t).calls =
      [.InsertOne (studio.encodeInfo (studio.newInfo lib ns t))] := by
    intro t
    unfold studio.Create
    rw [hns]
    cases hi : coll.InsertOne (studio.encodeInfo (studio.newInfo lib ns t)) <;> rfl
  have hso : ∀ t coll2, coll.InsertOne (studio.encodeInfo (studio.newInfo lib ns t)) =
      .ok coll2 → (studio.Create lib coll ns t).out = .ret (studio.newInfo lib ns t, none) := by
    intro t coll2 hi
    unfold studio.Create
    rw [hns]
    simp only [hi]
  refine ⟨rfl, hsc now, hso now, rfl, rfl, rfl, ?_, ?_, ?_, ?_⟩
  · unfold user.Create
    rw [hnu]
    simp only [hhash]
    cases hi : coll.InsertOne (user.encodeInfo (user.newInfo lib nu hash now)) <;> rfl
  · intro coll2 hi
    unfold user.Create
    rw [hnu]
    simp only [hhash, hi]
  · unfold studioGroup.create
    simp only [hv, hb]
    cases ho : (studio.Create lib coll ns v.Now).out with
    | ret a =>
      obtain ⟨std, err⟩ := a
      cases err <;> simp [hsc v.Now]
    | fatal e => simp [hsc v.Now]
    | crashed msg => simp [hsc v.Now]
  · intro coll2 hi
    refine ⟨?_, rfl⟩
    unfold studioGroup.create
    simp only [hv, hb, hso v.Now coll2 hi]

/-- Witness of C14: creating `sample.newStudio` through the handler stamps the
record with the request's timestamp in UTC. -/
theorem create_time_fields_witness :
    (studioGroup.create sample.lib sample.empty sample.createRequest).reply =
      .ret (.respond (studio.newInfo sample.lib sample.newStudio ⟨7, "Local"⟩)
        http.StatusCreated) ∧
    (studio.newInfo sample.lib sample.newStudio ⟨7, "Local"⟩).Created_at = ⟨7, "UTC"⟩ :=
  (create_time_fields sample.lib sample.empty sample.newStudio sample.newUser [36, 50, 97]
    ⟨7, "Local"⟩ sample.createRequest { TraceID := "t1", Now := ⟨7, "Local"⟩ }
    rfl rfl rfl rfl rfl).2.2.2.2.2.2.2.2.2 _ rfl

/-- C15: each of the six studio handlers, when the request context carries no
web values, returns the shutdown error having decoded no body, read no route
parameter and called no store operation; the collection is unchanged. -/
theorem studio_handlers_without_values {β : Type} (lib : Lib)
    (Atoi : String → Except Err Int) (coll : mongo.Collection)
    (r : web.Request β) (rc : web.Request studio.NewStudio)
    (ru : web.Request studio.UpdateStudio)
    (hr : r.values = none) (hrc : rc.values = none) (hru : ru.values = none) :
    ((studioGroup.query Atoi coll r).reply =
        .ret (.err (.shutdown "web value missing from context")) ∧
      (studioGroup.query Atoi coll r).effects = [] ∧
      (studioGroup.query Atoi coll r).coll.docs = coll.docs) ∧
    ((studioGroup.queryByID lib coll r).reply =
        .ret (.err (.shutdown "web value missing from context")) ∧
      (studioGroup.queryByID lib coll r).effects = [] ∧
      (studioGroup.queryByID lib coll r).coll.docs = coll.docs) ∧
    ((studioGroup.queryByLocation Atoi coll r).reply =
        .ret (.err (.shutdown "web value missing from context")) ∧
      (studioGroup.queryByLocation Atoi coll r).effects = [] ∧
      (studioGroup.queryByLocation Atoi coll r).coll.docs = coll.docs) ∧
    ((studioGroup.create lib coll rc).reply =
        .ret (.err (.shutdown "web value missing from context")) ∧
      (studioGroup.create lib coll rc).effects = [] ∧
      (studioGroup.create lib coll rc).coll.docs = coll.docs) ∧
    ((studioGroup.update lib coll ru).reply =
        .ret (.err (.shutdown "web value missing from context")) ∧
      (studioGroup.update lib coll ru).effects = [] ∧
      (studioGroup.update lib coll ru).coll.docs = coll.docs) ∧
    ((studioGroup.delete lib coll r).reply =
        .ret (.err (.shutdown "web value missing from context")) ∧
      (studioGroup.delete lib coll r).effects = [] ∧
      (studioGroup.delete lib coll r).coll.docs = coll.docs) := by
  refine ⟨?_, ?_, ?_, ?_, ?_, ?_⟩
  · simp [studioGroup.query, hr]
  · simp [studioGroup.queryByID, hr]
  · simp [studioGroup.queryByLocation, hr]
  · simp [studioGroup.create, hrc]
  · simp [studioGroup.update, hru]
  · simp [studioGroup.delete, hr]

/-- Witness of C15: requests without web values against the stored users. -/
theorem studio_handlers_without_values_witness :
    (studioGroup.update sample.lib sample.users
        (sample.noValues studio.UpdateStudio sample.rename)).reply =
      .ret (.err (.shutdown "web value missing from context")) ∧
    (studioGroup.update sample.lib sample.users
        (sample.noValues studio.UpdateStudio sample.rename)).effects = [] :=
  ⟨(studio_handlers_without_values sample.lib (fun _ => .ok 1) sample.users
      (sample.noValues Unit ()) (sample.noValues studio.NewStudio sample.newStudio)
      (sample.noValues studio.UpdateStudio sample.rename) rfl rfl rfl).2.2.2.2.1.1,
   rfl⟩

/-! ### User update, paging, ID check, user creation -/

/-- C16: for a well-formed user ID and a valid update, when the claims lack the
admin role and the subject differs from the user ID, `user.Update` returns an
error whose cause is `ErrForbidden`; it issues no call to the user collection
at all, hence no write, and the collection is unchanged. -/
theorem user_update_forbidden (lib : Lib) (coll : mongo.Collection) (claims : auth.Claims)
    (userID : String) (uu : user.UpdateUser) (now : time.Time)
    (hid : lib.CheckID userID = none) (huu : lib.CheckUpdateUser uu = none)
    (hadmin : claims.Authorized auth.RoleAdmin = false) (hsub : claims.Subject ≠ userID) :
    (user.Update lib coll claims userID uu now).out =
      .ret (some (.wrap "updating user" user.ErrForbidden)) ∧
    (Err.wrap "updating user" user.ErrForbidden).Cause = user.ErrForbidden ∧
    (user.Update lib coll claims userID uu now).calls = [] ∧
    (user.Update lib coll claims userID uu now).calls.filter mongo.Call.isWrite = [] ∧
    (user.Update lib coll claims userID uu now).coll.docs = coll.docs := by
  have hq : user.QueryByID lib coll claims userID =
      ⟨.ret ({}, some user.ErrForbidden), coll, []⟩ := by
    unfold user.QueryByID
    rw [hid]
    simp only [if_pos (And.intro hadmin hsub)]
  have hu : user.Update lib coll claims userID uu now =
      ⟨.ret (some (.wrap "updating user" user.ErrForbidden)), coll, []⟩ := by
    unfold user.Update
    rw [hid, huu]
    simp only [hq]
  rw [hu]
  exact ⟨rfl, rfl, rfl, rfl, rfl⟩

/-- Witness of C16: the non-admin `sample.owner` updating another user's ID. -/
theorem user_update_forbidden_witness :
    (user.Update sample.lib sample.users sample.owner sample.id2 sample.nameOnly {}).out =
      .ret (some (.wrap "updating user" user.ErrForbidden)) :=
  (user_update_forbidden sample.lib sample.users sample.owner sample.id2 sample.nameOnly {}
    (by decide) rfl (by decide) (by decide)).1

/-- For a well-formed ID and an authorised caller, `User.QueryByID` returns a
nil error after one `FindOne` by `_id`. -/
theorem user_queryByID_allowed (lib : Lib) (coll : mongo.Collection) (claims : auth.Claims)
    (userID : String) (hid : lib.CheckID userID = none)
    (hallow : claims.Authorized auth.RoleAdmin = true ∨ claims.Subject = userID) :
    (∃ usr, (user.QueryByID lib coll claims userID).out = .ret (usr, none)) ∧
    (user.QueryByID lib coll claims userID).calls = [.FindOne [("_id", .str userID)]] := by
  have hnot : ¬ (claims.Authorized auth.RoleAdmin = false ∧ claims.Subject ≠ userID) := by
    rintro ⟨h1, h2⟩
    rcases hallow with h | h
    · rw [h1] at h
      exact Bool.noConfusion h
    · exact h2 h
  unfold user.QueryByID
  rw [hid]
  simp only [if_neg hnot]
  cases hf : coll.FindOne [("_id", bson.Value.str userID)] with
  | ok d => exact ⟨⟨_, rfl⟩, rfl⟩
  | error err => exact ⟨⟨_, rfl⟩, rfl⟩

/-- C17: for a well-formed ID, a valid update and an authorised caller,
`user.Update` with `Name`, `Email` or `Password` absent does not complete: once
the password, if given, is hashed, building the update document dereferences
the absent field and the call ends in a nil-dereference panic, after the
lookup and before any write. -/
theorem user_update_nil_field (lib : Lib) (coll : mongo.Collection) (claims : auth.Claims)
    (userID : String) (uu : user.UpdateUser) (now : time.Time)
    (hid : lib.CheckID userID = none) (huu : lib.CheckUpdateUser uu = none)
    (hallow : claims.Authorized auth.RoleAdmin = true ∨ claims.Subject = userID)
    (hhash : ∀ pw, uu.Password = some pw → ∃ h, lib.GenerateFromPassword pw = .ok h)
    (hnil : uu.Name = none ∨ uu.Email = none ∨ uu.Password = none) :
    (user.Update lib coll claims userID uu now).out = .crashed nilDereference ∧
    (user.Update lib coll claims userID uu now).calls = [.FindOne [("_id", .str userID)]] := by
  obtain ⟨⟨usr, hq⟩, hc⟩ := user_queryByID_allowed lib coll claims userID hid hallow
  have hh : ∃ h, user.updateHash lib uu usr = .ok h := by
    unfold user.updateHash
    cases hp : uu.Password with
    | none => exact ⟨_, rfl⟩
    | some pw => exact hhash pw hp
  obtain ⟨h, hh⟩ := hh
  unfold user.Update
  rw [hid, huu]
  simp only [hq, hh, hc]
  rcases hnil with hn | hn | hn
  · rw [hn]
    exact ⟨rfl, rfl⟩
  · rw [hn]
    cases uu.Name <;> exact ⟨rfl, rfl⟩
  · rw [hn]
    cases uu.Name <;> cases uu.Email <;> exact ⟨rfl, rfl⟩

/-- Witness of C17: an admin renaming the stored user, with e-mail and
password left out of the update. -/
theorem user_update_nil_field_witness :
    sample.admin.Authorized auth.RoleAdmin = true ∧
    (user.Update sample.lib sample.users sample.admin sample.id1 sample.nameOnly {}).out =
      .crashed nilDereference :=
  ⟨by decide,
   (user_update_nil_field sample.lib sample.users sample.admin sample.id1 sample.nameOnly {}
      (by decide) rfl (Or.inl (by decide)) (fun _ _ => ⟨[36, 50, 97], rfl⟩)
      (Or.inr (Or.inl rfl))).1⟩

/-- With all three pointer fields present, a well-formed ID, a valid update,
an authorised caller and a password that hashes, `user.Update` completes with a
nil error after the lookup and one find-and-update by name. -/
theorem user_update_full (lib : Lib) (coll : mongo.Collection) (claims : auth.Claims)
    (userID : String) (uu : user.UpdateUser) (now : time.Time)
    (name email password : String) (hash : List Nat)
    (hid : lib.CheckID userID = none) (huu : lib.CheckUpdateUser uu = none)
    (hallow : claims.Authorized auth.RoleAdmin = true ∨ claims.Subject = userID)
    (hn : uu.Name = some name) (he : uu.Email = some email)
    (hp : uu.Password = some password)
    (hhash : lib.GenerateFromPassword password = .ok hash) :
    (user.Update lib coll claims userID uu now).out = .ret none ∧
    (user.Update lib coll claims userID uu now).calls =
      [.FindOne [("_id", .str userID)],
       .FindOneAndUpdate [("name", .str name)]
         (user.updateDoc name email uu.Roles password hash)] := by
  obtain ⟨⟨usr, hq⟩, hc⟩ := user_queryByID_allowed lib coll claims userID hid hallow
  have hh : user.updateHash lib uu usr = .ok hash := by
    simp [user.updateHash, hp, hhash]
  unfold user.Update
  rw [hid, huu]
  simp [hq, hh, hc, hn, he, hp, user.updateFilter, bson.ptr]

/-- A value in the range of a Go `int` is unchanged by the conversion. -/
theorem int64wrap_of_range (x : Int) (hlo : -9223372036854775808 ≤ x)
    (hhi : x < 9223372036854775808) : int64wrap x = x := by
  unfold int64wrap
  omega

/-- C18: in `user.Query`, `studio.Query` and `studio.QueryByLocation` the
offset `(pageNumber - 1) * rowsPerPage` is the limit of the first option set,
the second option set has limit `rowsPerPage`, and no option set has a skip; so
the merged options, in which the later set overrides the earlier, are limit
`rowsPerPage` without skip for every page number, and the outcome of the
search does not depend on the page number. -/
theorem query_page_ignored (users studios : mongo.Collection) (p1 p2 rows : Int)
    (city : String) :
    user.findOptions p1 rows =
      [{ Limit := some (int64wrap (int64wrap (p1 - 1) * rows)), Skip := none },
       { Limit := some rows, Skip := none }] ∧
    studio.findOptions p1 rows =
      [{ Limit := some (int64wrap (int64wrap (p1 - 1) * rows)), Skip := none },
       { Limit := some rows, Skip := none }] ∧
    (user.Query users p1 rows).calls = [.Find [("", .null)] (user.findOptions p1 rows)] ∧
    (studio.Query studios p1 rows).calls =
      [.Find [("", .null)] (studio.findOptions p1 rows)] ∧
    (studio.QueryByLocation studios p1 rows city).calls =
      [.Find [("city", .str city)] (studio.findOptions p1 rows)] ∧
    mongo.MergeFindOptions (user.findOptions p1 rows) = { Limit := some rows, Skip := none } ∧
    mongo.MergeFindOptions (studio.findOptions p1 rows) =
      { Limit := some rows, Skip := none } ∧
    mongo.MergeFindOptions (user.findOptions p1 rows) =
      mongo.MergeFindOptions (user.findOptions p2 rows) ∧
    mongo.MergeFindOptions (studio.findOptions p1 rows) =
      mongo.MergeFindOptions (studio.findOptions p2 rows) ∧
    (user.Query users p1 rows).out = (user.Query users p2 rows).out ∧
    (studio.Query studios p1 rows).out = (studio.Query studios p2 rows).out ∧
    (studio.QueryByLocation studios p1 rows city).out =
      (studio.QueryByLocation studios p2 rows city).out := by
  have hmu : ∀ p, mongo.MergeFindOptions (user.findOptions p rows) =
      { Limit := some rows, Skip := none } := fun _ => rfl
  have hms : ∀ p, mongo.MergeFindOptions (studio.findOptions p rows) =
      { Limit := some rows, Skip := none } := fun _ => rfl
  have hfu : ∀ p, users.Find [("", .null)] (user.findOptions p rows) =
      users.Find [("", .null)] (user.findOptions p1 rows) := by
    intro p
    simp only [mongo.Collection.Find, hmu]
  have hfs : ∀ p filter, studios.Find filter (studio.findOptions p rows) =
      studios.Find filter (studio.findOptions p1 rows) := by
    intro p filter
    simp only [mongo.Collection.Find, hms]
  have hucalls : ∀ p, (user.Query users p rows).calls =
      [.Find [("", .null)] (user.findOptions p rows)] := by
    intro p
    unfold user.Query
    cases users.Find [("", .null)] (user.findOptions p rows) with
    | error err => rfl
    | ok docs => cases hd : user.decodeAll docs <;> simp only [hd]
  have hscalls : ∀ p filter, (studio.find studios filter p rows).calls =
      [.Find filter (studio.findOptions p rows)] := by
    intro p filter
    unfold studio.find
    cases studios.Find filter (studio.findOptions p rows) with
    | error err => rfl
    | ok docs => cases hd : studio.decodeAll docs <;> simp only [hd]
  have huout : (user.Query users p1 rows).out = (user.Query users p2 rows).out := by
    unfold user.Query
    rw [hfu p2]
    cases users.Find [("", .null)] (user.findOptions p1 rows) with
    | error err => rfl
    | ok docs => cases hd : user.decodeAll docs <;> simp only [hd]
  have hsout : ∀ filter, (studio.find studios filter p1 rows).out =
      (studio.find studios filter p2 rows).out := by
    intro filter
    unfold studio.find
    rw [hfs p2 filter]
    cases studios.Find filter (studio.findOptions p1 rows) with
    | error err => rfl
    | ok docs => cases hd : studio.decodeAll docs <;> simp only [hd]
  exact ⟨rfl, rfl, hucalls p1, hscalls p1 _, hscalls p1 _, hmu p1, hms p1,
    (hmu p1).trans (hmu p2).symm, (hms p1).trans (hms p2).symm, huout, hsout _, hsout _⟩

/-- Witness of C18: pages 1 and 3 with two rows per page return the same users. -/
theorem query_page_ignored_witness :
    (user.Query sample.users 1 2).out = (user.Query sample.users 3 2).out ∧
    user.findOptions 3 2 = [{ Limit := some 4 }, { Limit := some 2 }] :=
  ⟨(query_page_ignored sample.users sample.empty 1 3 2 "Lagos").2.2.2.2.2.2.2.2.2.1, by decide⟩

/-- C19: in `user.QueryByID`, `user.Delete`, `user.Update` and `studio.Delete`
the ID-format check comes first: for an ID that fails it, the result is the
package's `ErrInvalidID` whatever the claims (and, for `Update`, whatever the
update), no call is issued to the store and the collection is unchanged. -/
theorem invalid_id_before_authorization (lib : Lib) (coll : mongo.Collection)
    (claims : auth.Claims) (id : String) (uu : user.UpdateUser) (now : time.Time) (e : Err)
    (hid : lib.CheckID id = some e) :
    ((user.QueryByID lib coll claims id).out = .ret ({}, some user.ErrInvalidID) ∧
      (user.QueryByID lib coll claims id).calls = [] ∧
      (user.QueryByID lib coll claims id).coll.docs = coll.docs) ∧
    ((user.Delete lib coll claims id).out = .ret (some user.ErrInvalidID) ∧
      (user.Delete lib coll claims id).calls = [] ∧
      (user.Delete lib coll claims id).coll.docs = coll.docs) ∧
    ((user.Update lib coll claims id uu now).out = .ret (some user.ErrInvalidID) ∧
      (user.Update lib coll claims id uu now).calls = [] ∧
      (user.Update lib coll claims id uu now).coll.docs = coll.docs) ∧
    ((studio.Delete lib coll claims id).out = .ret (some studio.ErrInvalidID) ∧
      (studio.Delete lib coll claims id).calls = [] ∧
      (studio.Delete lib coll claims id).coll.docs = coll.docs) := by
  refine ⟨?_, ?_, ?_, ?_⟩
  · simp [user.QueryByID, hid]
  · simp [user.Delete, hid]
  · simp [user.Update, hid]
  · simp [studio.Delete, hid]

/-- Witness of C19: the malformed ID `"xyz"` with an admin's claims. -/
theorem invalid_id_before_authorization_witness :
    sample.admin.Authorized auth.RoleAdmin = true ∧
    (user.Delete sample.lib sample.users sample.admin "xyz").out =
      .ret (some user.ErrInvalidID) ∧
    (user.Delete sample.lib sample.users sample.admin "xyz").calls = [] :=
  ⟨by decide,
   (invalid_id_before_authorization sample.lib sample.users sample.admin "xyz"
      sample.nameOnly {} (.lib "invalid UUID length") (by decide)).2.1.1,
   (invalid_id_before_authorization sample.lib sample.users sample.admin "xyz"
      sample.nameOnly {} (.lib "invalid UUID length") (by decide)).2.1.2.1⟩

/-- The encoded record is stored under its own ID. -/
theorem user_encodeInfo_id (usr : user.Info) :
    bson.D.get (user.encodeInfo usr) "_id" = .str usr.ID := by
  simp [user.encodeInfo, bson.D.get]

/-- C20: for a valid `NewUser` whose password hashes, the record `user.Create`
inserts carries the plaintext password unchanged in `Password` next to the
hash in `PasswordHash`, with `Name`, `Email` and `Roles` copied from the input;
the stored document holds the plaintext under `password` next to the hash,
name, e-mail and roles, and decodes back to these values; and when the
insertion succeeds that same record is returned and is the last document of
the collection. -/
theorem user_create_keeps_plaintext (lib : Lib) (coll : mongo.Collection)
    (nu : user.NewUser) (hash : List Nat) (now : time.Time)
    (hnu : lib.CheckNewUser nu = none)
    (hhash : lib.GenerateFromPassword nu.Password = .ok hash) :
    (user.newInfo lib nu hash now).Password = nu.Password ∧
    (user.newInfo lib nu hash now).PasswordHash = hash ∧
    (user.newInfo lib nu hash now).Name = nu.Name ∧
    (user.newInfo lib nu hash now).Email = nu.Email ∧
    (user.newInfo lib nu hash now).Roles = nu.Roles ∧
    (user.Create lib coll nu now).calls =
      [.InsertOne (user.encodeInfo (user.newInfo lib nu hash now))] ∧
    bson.D.get (user.encodeInfo (user.newInfo lib nu hash now)) "password" =
      .str nu.Password ∧
    bson.D.get (user.encodeInfo (user.newInfo lib nu hash now)) "passwordhash" =
      .bytes hash ∧
    bson.D.get (user.encodeInfo (user.newInfo lib nu hash now)) "name" = .str nu.Name ∧
    bson.D.get (user.encodeInfo (user.newInfo lib nu hash now)) "email" = .str nu.Email ∧
    bson.D.get (user.encodeInfo (user.newInfo lib nu hash now)) "roles" = .strs nu.Roles ∧
    (user.decodeInfo (user.encodeInfo (user.newInfo lib nu hash now))).Password =
      nu.Password ∧
    (user.decodeInfo (user.encodeInfo (user.newInfo lib nu hash now))).PasswordHash = hash ∧
    (user.decodeInfo (user.encodeInfo (user.newInfo lib nu hash now))).Name = nu.Name ∧
    (user.decodeInfo (user.encodeInfo (user.newInfo lib nu hash now))).Email = nu.Email ∧
    (user.decodeInfo (user.encodeInfo (user.newInfo lib nu hash now))).Roles = nu.Roles ∧
    (∀ coll2, coll.InsertOne (user.encodeInfo (user.newInfo lib nu hash now)) = .ok coll2 →
      (user.Create lib coll nu now).out = .ret (user.newInfo lib nu hash now, none) ∧
      (user.Create lib coll nu now).coll.docs =
        coll.docs ++ [user.encodeInfo (user.newInfo lib nu hash now)]) := by
  have hdec : user.decoded (user.encodeInfo (user.newInfo lib nu hash now)) =
      user.encodeInfo (user.newInfo lib nu hash now) := by
    simp [user.decoded, user.encodeInfo, user.illTyped, bson.Value.fitsString,
      bson.Value.fitsStrings, bson.Value.fitsBytes, bson.Value.fitsTime, bson.Value.ofTime,
      List.takeWhile]
  refine ⟨rfl, rfl, rfl, rfl, rfl, ?_, ?_, ?_, ?_, ?_, ?_, ?_, ?_, ?_, ?_, ?_, ?_⟩
  · unfold user.Create
    rw [hnu]
    simp only [hhash]
    cases hi : coll.InsertOne (user.encodeInfo (user.newInfo lib nu hash now)) <;> rfl
  · simp [user.encodeInfo, bson.D.get, user.newInfo]
  · simp [user.encodeInfo, bson.D.get, user.newInfo]
  · simp [user.encodeInfo, bson.D.get, user.newInfo]
  · simp [user.encodeInfo, bson.D.get, user.newInfo]
  · simp [user.encodeInfo, bson.D.get, user.newInfo]
  · simp only [user.decodeInfo, hdec]
    simp [user.encodeInfo, bson.D.get, user.newInfo, bson.Value.asString]
  · simp only [user.decodeInfo, hdec]
    simp [user.encodeInfo, bson.D.get, user.newInfo, bson.Value.asBytes]
  · simp only [user.decodeInfo, hdec]
    simp [user.encodeInfo, bson.D.get, user.newInfo, bson.Value.asString]
  · simp only [user.decodeInfo, hdec]
    simp [user.encodeInfo, bson.D.get, user.newInfo, bson.Value.asString]
  · simp only [user.decodeInfo, hdec]
    simp [user.encodeInfo, bson.D.get, user.newInfo, bson.Value.asStrings]
  · intro coll2 hi
    have hdocs : coll2.docs =
        coll.docs ++ [user.encodeInfo (user.newInfo lib nu hash now)] := by
      unfold mongo.Collection.InsertOne at hi
      cases hf : coll.fault with
      | some err =>
        rw [hf] at hi
        cases hi
      | none =>
        rw [hf] at hi
        simp only at hi
        split at hi
        · cases hi
        · cases hi
          rfl
    unfold user.Create
    rw [hnu]
    simp only [hhash, hi]
    exact ⟨trivial, hdocs⟩

/-- Witness of C20: creating `sample.newUser` in the store of `sample.users`. -/
theorem user_create_keeps_plaintext_witness :
    (user.Create sample.lib sample.users sample.newUser ⟨7, "Local"⟩).out =
      .ret ({ ID := "00000000-0000-0000-0000-000000000009", Name := "Bob",
              Email := "bob@example.com", Roles := ["USER"], Password := "secret",
              PasswordHash := [36, 50, 97], Created_at := ⟨7, "UTC"⟩,
              Updated_at := ⟨7, "UTC"⟩ }, none) :=
  ((user_create_keeps_plaintext sample.lib sample.users sample.newUser [36, 50, 97]
    ⟨7, "Local"⟩ rfl rfl).2.2.2.2.2.2.2.2.2.2.2.2.2.2.2.2 _ rfl).1

end Drop
